import Mathlib

/-!
# Verification of the KME key-lifecycle engine

Shallow embedding of the key-management-entity (KME) simulator:
the shared key pool (`src/keys/shared_key_pool.py`), the per-SAE-pair
key store (`src/keys/key_store.py`), the delivery protocol handlers
(`src/router/external.py`), the peer scanner (`src/network/scanner.py`)
and the persistent bulk pool (`src/db/mongo.py`, `src/router/qkd_pool.py`).

Python dictionaries become association lists with in-place-update
semantics, the Mongo collection becomes a list of records, background
threads become explicit step functions, and blocking waits on the pool
condition variable become an explicit list of arrival batches (`waits`):
each entry is the batch of keys that concurrent producers appended
during one wait, and an exhausted list means the deadline expired.
-/

/-- A key record `{key_ID, key}` (spec §3, produced by the key generator). -/
structure Key where
  key_ID : String
  key : String
deriving DecidableEq, Repr

/-! ## Shared key pool server (`src/keys/shared_key_pool.py`, `SharedKeyPoolServer`) -/

/-- State of `SharedKeyPoolServer`: the pool list `self.keys`, the
`self.reserved_keys` dict (as an association list in insertion order),
the configuration read in `__init__`, the statistics counters, and `ctr`,
the index into the random stream used to model `KeyGenerator`. -/
structure PoolState where
  keys : List Key
  reserved_keys : List (String × Key)
  default_key_size : Nat
  max_key_count : Nat
  total_generated : Nat
  total_retrieved : Nat
  kme1_retrieved : Nat
  kme2_retrieved : Nat
  ctr : Nat
deriving DecidableEq, Repr

/-- Python dict update `m[k] = v`: replace in place, or append a fresh binding. -/
def rinsert (k : String) (v : Key) : List (String × Key) → List (String × Key)
  | [] => [(k, v)]
  | p :: rest => if p.1 = k then (k, v) :: rest else p :: rinsert k v rest

/-- Python dict deletion `del m[k]`. -/
def rerase (k : String) : List (String × Key) → List (String × Key)
  | [] => []
  | p :: rest => if p.1 = k then rest else p :: rerase k rest

/-- Python dict lookup `m[k]` / `k in m`. -/
def rlookup (k : String) : List (String × Key) → Option Key
  | [] => none
  | p :: rest => if p.1 = k then some p.2 else rlookup k rest

/-- The `key_ID`s currently in the pool list. -/
def poolIds (st : PoolState) : List String := st.keys.map (·.key_ID)

/-- The `key_ID`s currently in the reserved map. -/
def reservedIds (st : PoolState) : List String := st.reserved_keys.map (·.1)

/-- The statistics bumps performed on every consuming retrieval:
`total_retrieved += 1` plus the per-KME counter (`if kme_id == "1"` /
`elif kme_id == "2"`). -/
def bumpRetrieved (kme_id : String) (st : PoolState) : PoolState :=
  { st with
    total_retrieved := st.total_retrieved + 1
    kme1_retrieved := st.kme1_retrieved + (if kme_id = "1" then 1 else 0)
    kme2_retrieved := st.kme2_retrieved + (if kme_id = "2" then 1 else 0) }

/-- Modelled from the spec: `KeyGenerator.generate_key` (the file
`src/keys/key_generator.py` is not in the source tree; only its callers
are). Per spec §4.1 it returns `{key_ID: fresh UUID, key: base64(N random
bytes)}` for a requested byte count `N`. We model the cryptographic
random stream as an ambient function `gen : Nat → Nat → Key` mapping a
draw index and the byte count to the produced key; freshness of UUIDs
becomes an explicit hypothesis on `gen` where a theorem needs it. -/
def generate_key_unlocked (gen : Nat → Nat → Key) (st : PoolState) : Key × PoolState :=
  (gen st.ctr st.default_key_size,
   { st with ctr := st.ctr + 1, total_generated := st.total_generated + 1 })

/-- `n` iterations of `self.keys.append(self._generate_key_unlocked())`. -/
def appendGenerated (gen : Nat → Nat → Key) : Nat → PoolState → PoolState
  | 0, st => st
  | n + 1, st =>
    let p := generate_key_unlocked gen st
    appendGenerated gen n { p.2 with keys := p.2.keys ++ [p.1] }

/-- `SharedKeyPoolServer.add_keys_batch`: computes the (signed) remaining
capacity, generates `min(count, remaining)` keys when that is positive,
and returns the number (saving and notifying waiters are state no-ops). -/
def add_keys_batch (gen : Nat → Nat → Key) (st : PoolState) (count : Int) : Int × PoolState :=
  let remaining_capacity : Int := (st.max_key_count : Int) - (st.keys.length : Int)
  let to_generate := min count remaining_capacity
  if 0 < to_generate then (to_generate, appendGenerated gen to_generate.toNat st)
  else (to_generate, st)

/-- One iteration of the body of `SharedKeyPoolServer.start_generation`:
when the pool is below `refill_threshold` and capacity remains, generate
`min(batch_size, remaining_capacity)` keys (note the source counts the
batch in `total_generated` a second time on top of the per-key count). -/
def generation_step (gen : Nat → Nat → Key) (batch_size refill_threshold : Nat)
    (st : PoolState) : PoolState :=
  let remaining_capacity : Int := (st.max_key_count : Int) - (st.keys.length : Int)
  if st.keys.length < refill_threshold ∧ 0 < remaining_capacity then
    let batch_count := min batch_size remaining_capacity.toNat
    let st1 := appendGenerated gen batch_count st
    { st1 with total_generated := st1.total_generated + batch_count }
  else st

/-- The `while len(keys_retrieved) < count` loop of
`SharedKeyPoolServer.get_keys`.  A nonempty pool pops the front key:
with `remove=True` it is consumed and counted, with `remove=False` it is
moved into `reserved_keys` under its `key_ID` and a copy accumulated.  An
empty pool waits: the next entry of `waits` is the batch appended by
producers before the wakeup, and an exhausted `waits` is the deadline
expiring, which returns the partial list. -/
def getKeysGo (remove : Bool) (kme_id : String) (count : Nat) :
    List (List Key) → PoolState → List Key → List Key × PoolState
  | waits, st, acc =>
    if acc.length < count then
      match st.keys with
      | k :: rest =>
        if remove then
          getKeysGo remove kme_id count waits (bumpRetrieved kme_id { st with keys := rest })
            (acc ++ [k])
        else
          getKeysGo remove kme_id count waits
            { st with keys := rest, reserved_keys := rinsert k.key_ID k st.reserved_keys }
            (acc ++ [k])
      | [] =>
        match waits with
        | [] => (acc, st)
        | batch :: ws => getKeysGo remove kme_id count ws { st with keys := batch } acc
    else (acc, st)
termination_by waits _ acc => (waits.length, count - acc.length)
decreasing_by
  all_goals simp_all
  all_goals omega

/-- `SharedKeyPoolServer.get_keys(count, kme_id, timeout, remove)`. -/
def get_keys (remove : Bool) (kme_id : String) (count : Nat) (waits : List (List Key))
    (st : PoolState) : List Key × PoolState :=
  getKeysGo remove kme_id count waits st []

/-- The `for i, key in enumerate(self.keys)` search of `get_key_by_id`:
find the first pool entry with the given id and return it together with
the pool after `self.keys.pop(i)`. -/
def poolFindRemove (kid : String) : List Key → Option (Key × List Key)
  | [] => none
  | k :: rest =>
    if k.key_ID = kid then some (k, rest)
    else
      match poolFindRemove kid rest with
      | some (f, rest') => some (f, k :: rest')
      | none => none

/-- `SharedKeyPoolServer.get_key_by_id(key_id, kme_id, remove)`: the
reserved map is consulted first, then the pool list; with `remove=True`
the key is deleted from whichever structure held it and the statistics
are bumped, with `remove=False` a copy is returned and nothing changes. -/
def get_key_by_id (st : PoolState) (key_id kme_id : String) (remove : Bool) :
    Option Key × PoolState :=
  match rlookup key_id st.reserved_keys with
  | some found_key =>
    if remove then
      (some found_key, bumpRetrieved kme_id { st with reserved_keys := rerase key_id st.reserved_keys })
    else (some found_key, st)
  | none =>
    match poolFindRemove key_id st.keys with
    | some p =>
      if remove then (some p.1, bumpRetrieved kme_id { st with keys := p.2 })
      else (some p.1, st)
    | none => (none, st)

/-! ## Key store (`src/keys/key_store.py`, `KeyStore`) -/

/-- One entry of `KeyStore.container`. -/
structure Bucket where
  master_sae_id : String
  slave_sae_id : String
  keys : List Key
deriving DecidableEq, Repr

/-- `KeyStore.container`. -/
abbrev Store := List Bucket

/-- `KeyStore.get_sae_key_container`. -/
def get_sae_key_container (st : Store) (master_sae_id slave_sae_id : String) : Store :=
  st.filter (fun b => b.master_sae_id == master_sae_id && b.slave_sae_id == slave_sae_id)

/-- `KeyStore.get_keys`: the keys of the first matching bucket, else `[]`. -/
def store_get_keys (st : Store) (master_sae_id slave_sae_id : String) : List Key :=
  match get_sae_key_container st master_sae_id slave_sae_id with
  | [] => []
  | b :: _ => b.keys

/-- The `for existing_container in self.container: ... extend ... break`
branch of `append_keys`: extend the first matching bucket. -/
def extendFirstBucket (master_sae_id slave_sae_id : String) (ks : List Key) : Store → Store
  | [] => []
  | b :: rest =>
    if b.master_sae_id == master_sae_id && b.slave_sae_id == slave_sae_id then
      { b with keys := b.keys ++ ks } :: rest
    else b :: extendFirstBucket master_sae_id slave_sae_id ks rest

/-- `KeyStore.append_keys` without the broadcast side effect. -/
def append_keys (st : Store) (master_sae_id slave_sae_id : String) (ks : List Key) : Store :=
  if (get_sae_key_container st master_sae_id slave_sae_id).isEmpty then
    st ++ [⟨master_sae_id, slave_sae_id, ks⟩]
  else extendFirstBucket master_sae_id slave_sae_id ks st

/-- The inner `for j, k in enumerate(value['keys'])` loop of
`remove_keys`: delete the first key with the given id. -/
def eraseFirstKey (kid : String) : List Key → List Key
  | [] => []
  | k :: rest => if k.key_ID == kid then rest else k :: eraseFirstKey kid rest

/-- The `for i, value in enumerate(self.container)` loop of `remove_keys`
for a single requested key: every matching bucket loses its first key
with the given id; a bucket left empty is deleted and the loop breaks. -/
def removeKeyId (master_sae_id slave_sae_id kid : String) : Store → Store
  | [] => []
  | b :: rest =>
    if b.master_sae_id == master_sae_id && b.slave_sae_id == slave_sae_id then
      let ks := eraseFirstKey kid b.keys
      if ks.isEmpty then rest
      else { b with keys := ks } :: removeKeyId master_sae_id slave_sae_id kid rest
    else b :: removeKeyId master_sae_id slave_sae_id kid rest

/-- `KeyStore.remove_keys` without the broadcast side effect. -/
def remove_keys (st : Store) (master_sae_id slave_sae_id : String) (ks : List Key) : Store :=
  ks.foldl (fun s k => removeKeyId master_sae_id slave_sae_id k.key_ID s) st

/-- A replication event handed to `Broadcaster` (`send_keys` posts to
`/api/v1/kme/keys/exchange`, `remove_keys` to `/api/v1/kme/keys/remove`). -/
inductive Event where
  | sendKeys (master_sae_id slave_sae_id : String) (keys : List Key)
  | removeSent (master_sae_id slave_sae_id : String) (keys : List Key)
deriving DecidableEq, Repr

/-- `KeyStore.append_keys` with its broadcast. -/
def keystore_append (st : Store) (master_sae_id slave_sae_id : String) (ks : List Key)
    (do_broadcast : Bool) : Store × List Event :=
  (append_keys st master_sae_id slave_sae_id ks,
   if do_broadcast then [Event.sendKeys master_sae_id slave_sae_id ks] else [])

/-- `KeyStore.remove_keys` with its broadcast. -/
def keystore_remove (st : Store) (master_sae_id slave_sae_id : String) (ks : List Key)
    (do_broadcast : Bool) : Store × List Event :=
  (remove_keys st master_sae_id slave_sae_id ks,
   if do_broadcast then [Event.removeSent master_sae_id slave_sae_id ks] else [])

/-! ## Scanner directory (`src/network/scanner.py`) -/

/-- One entry of the scanner's `kme_list`. -/
structure KmeEntry where
  kme_id : String
  kme_url : String
  sae_id : String
deriving DecidableEq, Repr

/-- `Scanner.find_kme`: first entry whose `SAE_ID` matches. -/
def find_kme (l : List KmeEntry) (sae_id : String) : Option KmeEntry :=
  l.find? (fun k => k.sae_id == sae_id)

/-! ## Delivery-protocol handlers (`src/router/external.py`, `External`) -/

/-- The environment configuration the handlers read (`os.getenv`). All
sizes are byte counts, as stored in the environment. -/
structure Config where
  attached_sae_id : String
  default_key_size : Nat
  min_key_size : Nat
  max_key_size : Nat
  max_key_count : Nat
  max_keys_per_request : Nat
deriving DecidableEq, Repr

/-- The in-memory state a KME node's handlers act on: the key store
container and the shared pool server state. -/
structure KmeState where
  store : Store
  pool : PoolState
deriving DecidableEq, Repr

/-- An HTTP response: status code, optional `message` field, `keys` field. -/
structure HttpResult where
  status : Nat
  message : Option String
  keys : List Key
deriving DecidableEq, Repr

/-- `SharedKeyPoolClient.get_key` in primary mode (`kme_id == "1"`,
the wiring in `server/app.py`): a requested bit size that is nonzero and
differs from `DEFAULT_KEY_SIZE * 8` bypasses the pool and synthesizes a
one-off key of `(key_size + 7) // 8` bytes; otherwise one key is drawn
from the shared pool with the given `remove` flag. -/
def client_get_key (gen : Nat → Nat → Key) (cfg : Config) (pool : PoolState) (key_size : Nat)
    (waits : List (List Key)) (remove : Bool) : Option Key × PoolState :=
  let default_size_bits := cfg.default_key_size * 8
  if key_size ≠ 0 ∧ key_size ≠ default_size_bits then
    (some (gen pool.ctr ((key_size + 7) / 8)), { pool with ctr := pool.ctr + 1 })
  else
    let p := get_keys remove "1" 1 waits pool
    (p.1.head?, p.2)

/-- The `for i in range(number_of_keys)` acquisition loop of
`External.get_key`: each iteration calls `KeyStore.get_new_key`
(`remove=False`); a `None` aborts the whole request with a timeout. -/
def encAcquireLoop (gen : Nat → Nat → Key) (cfg : Config) (key_size : Nat) :
    Nat → PoolState → List Key → Option (List Key) × PoolState
  | 0, pool, acc => (some acc, pool)
  | n + 1, pool, acc =>
    match client_get_key gen cfg pool key_size [] false with
    | (none, pool') => (none, pool')
    | (some k, pool') => encAcquireLoop gen cfg key_size n pool' (acc ++ [k])

/-- The request-dependent inputs of `External.get_key`: a POST carries an
optional `number` and `size` in its JSON body, a GET carries neither. -/
structure EncRequest where
  isPost : Bool
  number : Option Nat
  size : Option Nat
deriving DecidableEq, Repr

/-- `External.get_key` (the `enc_keys` handler).  A GET defaults the
size to `DEFAULT_KEY_SIZE` (the raw byte count, not bits); bound checks
fire in source order; an unknown slave SAE falls back to "direct mode"
with the attached SAE as master; keys come from the pool client with
`remove=False` and are appended to the store with a broadcast. -/
def get_key (gen : Nat → Nat → Key) (cfg : Config) (scanner : List KmeEntry)
    (req : EncRequest) (slave_sae_id : String) (st : KmeState) :
    HttpResult × KmeState × List Event :=
  let number_of_keys := if req.isPost then req.number.getD 1 else 1
  let key_size := if req.isPost then req.size.getD (cfg.default_key_size * 8)
                  else cfg.default_key_size
  if number_of_keys > cfg.max_keys_per_request then
    (⟨400, some "Number of requested keys exceed allowed max.", []⟩, st, [])
  else if key_size > cfg.max_key_size * 8 then
    (⟨400, some "The requested key size is too large.", []⟩, st, [])
  else if key_size < cfg.min_key_size * 8 then
    (⟨400, some "The requested key size is too small.", []⟩, st, [])
  else
    let master_sae_id :=
      match find_kme scanner slave_sae_id with
      | none => cfg.attached_sae_id
      | some kme =>
        if slave_sae_id = cfg.attached_sae_id then kme.sae_id else cfg.attached_sae_id
    let stored_keys := store_get_keys st.store master_sae_id slave_sae_id
    if stored_keys.length + number_of_keys > cfg.max_key_count then
      (⟨400, some "Too many keys would be stored.", []⟩, st, [])
    else
      match encAcquireLoop gen cfg key_size number_of_keys st.pool [] with
      | (none, pool') =>
        (⟨503, some "Timed out waiting for quantum keys.", []⟩, { st with pool := pool' }, [])
      | (some ks, pool') =>
        let p := keystore_append st.store master_sae_id slave_sae_id ks true
        (⟨200, none, ks⟩, ⟨p.1, pool'⟩, p.2)

/-- The QKD-014 status block returned by `External.get_status`. -/
structure StatusBlock where
  source_KME_ID : String
  target_KME_ID : String
  master_SAE_ID : String
  slave_SAE_ID : String
  key_size : Nat
  stored_key_count : Nat
  max_key_count : Nat
  max_key_per_request : Nat
  max_key_size : Nat
  min_key_size : Nat
  max_SAE_ID_count : Nat
deriving DecidableEq, Repr

/-- `External.get_status`: 400 for a slave SAE the scanner has not
discovered, else the status block with all sizes converted to bits. -/
def get_status (cfg : Config) (kme_id_env : String) (scanner : List KmeEntry)
    (slave_sae_id : String) (st : KmeState) : HttpResult × Option StatusBlock :=
  match find_kme scanner slave_sae_id with
  | none => (⟨400, some "The given slave SAE ID is unknown by this KME.", []⟩, none)
  | some kme =>
    let is_this_sae_slave := slave_sae_id = cfg.attached_sae_id
    let master_sae_id := if is_this_sae_slave then kme.sae_id else cfg.attached_sae_id
    (⟨200, none, []⟩, some
      { source_KME_ID := if is_this_sae_slave then kme.kme_id else kme_id_env
        target_KME_ID := if is_this_sae_slave then kme_id_env else kme.kme_id
        master_SAE_ID := master_sae_id
        slave_SAE_ID := slave_sae_id
        key_size := cfg.default_key_size * 8
        stored_key_count := (store_get_keys st.store master_sae_id slave_sae_id
          ++ store_get_keys st.store slave_sae_id master_sae_id).length
        max_key_count := cfg.max_key_count
        max_key_per_request := cfg.max_keys_per_request
        max_key_size := cfg.max_key_size * 8
        min_key_size := cfg.min_key_size * 8
        max_SAE_ID_count := 0 })

/-- The `for key_id in missing_ids` recovery loop of
`External.get_key_with_ids`: each missing id is looked up through
`SharedKeyPoolClient.get_key_by_id`, which in primary mode calls
`SharedKeyPoolServer.get_key_by_id(key_id, "1")` with its default
`remove=True`; found keys are appended to the selection. -/
def decRecover (missing : List String) (pool : PoolState) : List Key × PoolState :=
  missing.foldl
    (fun acc kid =>
      match get_key_by_id acc.2 kid "1" true with
      | (some k, p') => (acc.1 ++ [k], p')
      | (none, p') => (acc.1, p'))
    ([], pool)

/-- `External.get_key_with_ids` (the `dec_keys` handler) on the primary
node, POST path: `slave_sae_id` is the caller identity resolved from the
certificate CN or the `X-SAE-ID` header, `requested_keys` the ids from
the body.  Candidates come from both directional buckets; ids not found
there are recovered from the shared pool (consuming them); an empty
selection is 404, a selection whose length differs from the request list
length is 206, and a length match is 200 with a store removal and its
broadcast. -/
def get_key_with_ids (st : KmeState) (master_sae_id slave_sae_id : String)
    (requested_keys : List String) : HttpResult × KmeState × List Event :=
  let keys_master_to_slave := store_get_keys st.store master_sae_id slave_sae_id
  let keys_slave_to_master := store_get_keys st.store slave_sae_id master_sae_id
  let all_available_keys := keys_master_to_slave ++ keys_slave_to_master
  let selected0 := all_available_keys.filter (fun k => requested_keys.contains k.key_ID)
  let found_ids := selected0.map (·.key_ID)
  let missing_ids := requested_keys.filter (fun kid => !(found_ids.contains kid))
  let rec_p := decRecover missing_ids st.pool
  let selected_keys := selected0 ++ rec_p.1
  if selected_keys.length = 0 then
    (⟨404, some "None of the requested keys exist.", []⟩, { st with pool := rec_p.2 }, [])
  else if requested_keys.length ≠ selected_keys.length then
    (⟨206, some "Some keys missing.", selected_keys⟩, { st with pool := rec_p.2 }, [])
  else
    let p := keystore_remove st.store master_sae_id slave_sae_id selected_keys true
    (⟨200, none, selected_keys⟩, ⟨p.1, rec_p.2⟩, p.2)

/-! ## Persistent bulk pool (`src/db/mongo.py`, `src/router/qkd_pool.py`) -/

/-- A document of the `qkd_blocks` collection (`QkdBlock` schema).
Timestamps become naturals. -/
structure QkdBlock where
  keyId : String
  senderId : String
  receiverId : String
  keyData : String
  deliveredToReceiver : Bool
  createdAt : Nat
deriving DecidableEq, Repr

/-- The `qkd_blocks` collection, in insertion order. -/
abbrev MongoDb := List QkdBlock

/-- The `keyId`s present in the collection. -/
def dbKeyIds (db : MongoDb) : List String := db.map (·.keyId)

/-- The effect of inserting documents one by one under the unique index
on `keyId`: a document whose id is already present is rejected, the rest
are appended. -/
def insertFresh (db : MongoDb) : List QkdBlock → MongoDb
  | [] => db
  | b :: rest =>
    insertFresh (if b.keyId ∈ dbKeyIds db then db else db ++ [b]) rest

/-- `QkdBlock.bulk_insert` (`insert_many(ordered=False)`): non-duplicate
documents are inserted; when any duplicate made the driver raise, the
`except` branch reports `0` inserted even though the rest were stored. -/
def bulk_insert (db : MongoDb) (bs : List QkdBlock) : Nat × MongoDb :=
  let db' := insertFresh db bs
  if db'.length = db.length + bs.length then (bs.length, db') else (0, db')

/-- The Mongo filter of `find_pending_for_receiver` / `count_pending`:
`receiverId` matches, `deliveredToReceiver` is false, and the optional
`senderId` matches when given. -/
def pendingQuery (db : MongoDb) (receiver_id : String) (sender_id : Option String) : MongoDb :=
  db.filter (fun b =>
    b.receiverId == receiver_id && b.deliveredToReceiver == false &&
      (match sender_id with | none => true | some s => b.senderId == s))

/-- Stable ascending insertion by `createdAt` (model of the Mongo
`sort('createdAt', ASCENDING)` stage). -/
def insertAsc (b : QkdBlock) : List QkdBlock → List QkdBlock
  | [] => [b]
  | c :: rest => if c.createdAt < b.createdAt then c :: insertAsc b rest else b :: c :: rest

/-- Stable sort by `createdAt` ascending. -/
def sortByCreatedAt (l : List QkdBlock) : List QkdBlock := l.foldr insertAsc []

/-- `QkdBlock.find_pending_for_receiver`: pending ids for the receiver,
ordered by `createdAt` ascending, truncated to `limit`. -/
def find_pending_for_receiver (db : MongoDb) (receiver_id : String)
    (sender_id : Option String) (limit : Nat) : List String :=
  ((sortByCreatedAt (pendingQuery db receiver_id sender_id)).take limit).map (·.keyId)

/-- `QkdBlock.count_pending`. -/
def count_pending (db : MongoDb) (receiver_id : String) (sender_id : Option String) : Nat :=
  (pendingQuery db receiver_id sender_id).length

/-- The projection `{keyId, keyData, senderId}` returned by
`fetch_keys_by_ids`. -/
structure FetchedKey where
  keyId : String
  keyData : String
  senderId : String
deriving DecidableEq, Repr

/-- The Mongo filter of `fetch_keys_by_ids`: `keyId ∈ key_ids`,
`receiverId` matches, optional `senderId` matches. -/
def fetchQuery (db : MongoDb) (receiver_id : String) (key_ids : List String)
    (sender_id : Option String) : MongoDb :=
  db.filter (fun b =>
    key_ids.contains b.keyId && b.receiverId == receiver_id &&
      (match sender_id with | none => true | some s => b.senderId == s))

/-- `QkdBlock.fetch_keys_by_ids`: read the matching blocks, then
`update_many` flips `deliveredToReceiver` to true on the found ids. -/
def fetch_keys_by_ids (db : MongoDb) (receiver_id : String) (key_ids : List String)
    (sender_id : Option String) : List FetchedKey × MongoDb :=
  let found := fetchQuery db receiver_id key_ids sender_id
  let results := found.map (fun b => FetchedKey.mk b.keyId b.keyData b.senderId)
  let found_ids := found.map (·.keyId)
  let db' :=
    if found_ids.isEmpty then db
    else db.map (fun b =>
      if found_ids.contains b.keyId then { b with deliveredToReceiver := true } else b)
  (results, db')

/-- `QkdBlock.delete_by_key_id` (`delete_one` on the unique `keyId`):
remove the first document with that id. -/
def delete_by_key_id (kid : String) : MongoDb → MongoDb
  | [] => []
  | b :: rest => if b.keyId == kid then rest else b :: delete_by_key_id kid rest

/-- `QkdBlock.cleanup_old_delivered`: delete delivered blocks created
before the cutoff. -/
def cleanup_old_delivered (cutoff : Nat) (db : MongoDb) : MongoDb :=
  db.filter (fun b => !(b.deliveredToReceiver && b.createdAt < cutoff))

/-- The state-mutating operations of the bulk-pool subsystem, for
stating properties quantified over every operation. -/
inductive BulkOp where
  | insertOne (b : QkdBlock)
  | bulkIns (bs : List QkdBlock)
  | fetchOp (receiver_id : String) (key_ids : List String) (sender_id : Option String)
  | deleteOne (kid : String)
  | cleanup (cutoff : Nat)
deriving DecidableEq, Repr

/-- The collection after running one bulk-pool operation
(`QkdBlock.save`, `bulk_insert`, `fetch_keys_by_ids`,
`delete_by_key_id`, `cleanup_old_delivered`). -/
def applyBulkOp : BulkOp → MongoDb → MongoDb
  | BulkOp.insertOne b, db => if b.keyId ∈ dbKeyIds db then db else db ++ [b]
  | BulkOp.bulkIns bs, db => (bulk_insert db bs).2
  | BulkOp.fetchOp r ids s, db => (fetch_keys_by_ids db r ids s).2
  | BulkOp.deleteOne kid, db => delete_by_key_id kid db
  | BulkOp.cleanup cutoff, db => cleanup_old_delivered cutoff db

/-- Constants of `src/router/qkd_pool.py`. -/
def MAX_BLOCKS_PER_REQUEST : Nat := 10000

/-- Constant of `src/router/qkd_pool.py`: each block is exactly 1 KiB. -/
def KEY_BLOCK_SIZE_BYTES : Nat := 1024

/-- The response of `QkdPoolRouter.request_key_pool` (fields the claims
observe). -/
structure PoolResponse where
  status : Nat
  success : Bool
  error : Option String
  count : Nat
  keyIds : List String
  blockSizeBytes : Nat
deriving DecidableEq, Repr

/-- Modelled from the spec for the id/material stream of
`generate_key_block` (`uuid.uuid4` and `secrets.token_bytes(1024)`):
`bgen` maps a draw index to the fresh `(key_id, key_data_b64)` pair;
freshness is a hypothesis where a theorem needs it. -/
def generate_key_block (bgen : Nat → String × String) (i : Nat) : String × String := bgen i

/-- `QkdPoolRouter.request_key_pool` with Mongo reachable: validations
in source order, then `count` blocks built on one shared `created_at`
and bulk-inserted; the response reports the inserted count and
`key_ids[:inserted]`. -/
def request_key_pool (bgen : Nat → String × String) (ctr : Nat) (now : Nat) (db : MongoDb)
    (sender_id receiver_id : String) (count : Int) : PoolResponse × MongoDb :=
  if sender_id = "" then (⟨400, false, some "Missing senderId", 0, [], 0⟩, db)
  else if receiver_id = "" then (⟨400, false, some "Missing receiverId", 0, [], 0⟩, db)
  else if count < 1 then (⟨400, false, some "count must be a positive integer", 0, [], 0⟩, db)
  else if count > (MAX_BLOCKS_PER_REQUEST : Int) then
    (⟨400, false, some "count exceeds maximum allowed", 0, [], 0⟩, db)
  else
    let blocks := (List.range count.toNat).map (fun i =>
      let p := generate_key_block bgen (ctr + i)
      QkdBlock.mk p.1 sender_id receiver_id p.2 false now)
    let key_ids := blocks.map (·.keyId)
    let ins := bulk_insert db blocks
    (⟨201, true, none, ins.1, key_ids.take ins.1, KEY_BLOCK_SIZE_BYTES⟩, ins.2)

/-- The response of `QkdPoolRouter.get_pending_keys` (fields the claims
observe). -/
structure PendingResponse where
  status : Nat
  pendingCount : Nat
  pendingKeyIds : List String
deriving DecidableEq, Repr

/-- `QkdPoolRouter.get_pending_keys` with Mongo reachable: a missing
`receiverId` is 400; an out-of-range limit (absent, below 1 or above
10000) falls back to 1000. -/
def get_pending_keys (db : MongoDb) (receiver_id : String) (sender_id : Option String)
    (limitArg : Option Int) : PendingResponse :=
  if receiver_id = "" then ⟨400, 0, []⟩
  else
    let limit0 := limitArg.getD 1000
    let limit : Int := if limit0 < 1 ∨ limit0 > 10000 then 1000 else limit0
    ⟨200, count_pending db receiver_id sender_id,
      find_pending_for_receiver db receiver_id sender_id limit.toNat⟩

/-- The response of `QkdPoolRouter.fetch_keys` (fields the claims
observe). -/
structure FetchResponse where
  status : Nat
  keys : List FetchedKey
  fetchedCount : Nat
  missingKeyIds : List String
deriving DecidableEq, Repr

/-- `QkdPoolRouter.fetch_keys` with Mongo reachable: validations, the
marking fetch, then the `missingKeyIds` complement. -/
def fetch_keys (db : MongoDb) (receiver_id : String) (sender_id : Option String)
    (key_ids : List String) : FetchResponse × MongoDb :=
  if receiver_id = "" then (⟨400, [], 0, []⟩, db)
  else if key_ids.isEmpty then (⟨400, [], 0, []⟩, db)
  else if key_ids.length > MAX_BLOCKS_PER_REQUEST then (⟨400, [], 0, []⟩, db)
  else
    let p := fetch_keys_by_ids db receiver_id key_ids sender_id
    let fetched_ids := p.1.map (·.keyId)
    let missing_ids := key_ids.filter (fun kid => !(fetched_ids.contains kid))
    (⟨200, p.1, p.1.length, missing_ids⟩, p.2)

/-! ## Derived predicates and sample inputs -/

/-- The shared-pool location invariant (spec §3, §8): no duplicate ids in
the pool list, no duplicate ids among the reserved bindings, and no id in
both. -/
def PoolInv (st : PoolState) : Prop :=
  (poolIds st).Nodup ∧ (reservedIds st).Nodup ∧ ∀ kid ∈ poolIds st, kid ∉ reservedIds st

/-- A sample random stream for concrete instantiations: draw `i` yields a
key id of `i` repeated characters, so distinct draws have distinct ids. -/
def sampleGen (i _n : Nat) : Key := ⟨String.mk (List.replicate i 'a'), "key-material"⟩

/-- A sample id/material stream for bulk blocks: draw `i` yields a block
id of `i` repeated characters. -/
def sampleBlockGen (i : Nat) : String × String := (String.mk (List.replicate i 'q'), "block-data")

/-- An empty pool with capacity 10 and default size 32 bytes. -/
def emptyPool : PoolState :=
  { keys := [], reserved_keys := [], default_key_size := 32, max_key_count := 10
    total_generated := 0, total_retrieved := 0, kme1_retrieved := 0, kme2_retrieved := 0
    ctr := 0 }

/-- A pool holding two keys with distinct ids. -/
def twoKeyPool : PoolState :=
  { emptyPool with keys := [⟨"p1", "x"⟩, ⟨"p2", "y"⟩] }

/-- A sample handler configuration: attached SAE "A", 32-byte default
keys, sizes within [16, 64] bytes, at most 10 stored keys, at most 5 keys
per request. -/
def sampleCfg : Config :=
  { attached_sae_id := "A", default_key_size := 32, min_key_size := 16, max_key_size := 64
    max_key_count := 10, max_keys_per_request := 5 }

/-- A sample scanner directory holding one peer KME with SAE "B". -/
def sampleScanner : List KmeEntry := [⟨"2", "http://kme2", "B"⟩]

/-- The selection phase of `External.get_key_with_ids`: the keys of both
directional buckets filtered by the requested ids, extended by the
shared-pool recoveries for the ids not found locally, together with the
pool state after those recoveries. -/
def decSelection (st : KmeState) (master_sae_id slave_sae_id : String)
    (requested_keys : List String) : List Key × PoolState :=
  let selected0 := ((store_get_keys st.store master_sae_id slave_sae_id
    ++ store_get_keys st.store slave_sae_id master_sae_id).filter
      (fun k => requested_keys.contains k.key_ID))
  let found_ids := selected0.map (·.key_ID)
  let missing_ids := requested_keys.filter (fun kid => !(found_ids.contains kid))
  let rec_p := decRecover missing_ids st.pool
  (selected0 ++ rec_p.1, rec_p.2)

/-- A handler configuration whose default key size (32 bytes) exceeds
`MAX_KEY_SIZE * 8` bits (max 2 bytes): used to probe the GET `enc_keys`
byte/bit confusion. -/
def sampleCfg2 : Config :=
  { attached_sae_id := "A", default_key_size := 32, min_key_size := 1, max_key_size := 2
    max_key_count := 10, max_keys_per_request := 5 }

/-- A handler configuration accepting sizes in [1, 64] bytes with a
32-byte default. -/
def sampleCfg3 : Config :=
  { attached_sae_id := "A", default_key_size := 32, min_key_size := 1, max_key_size := 64
    max_key_count := 10, max_keys_per_request := 5 }

/-! # Theorems -/

/-! ## Pool loop lemmas -/

theorem getKeysGo_nil (remove : Bool) (kme_id : String) (count : Nat) :
    ∀ (l : List Key) (st : PoolState) (acc : List Key), st.keys = l →
    getKeysGo remove kme_id count [] st acc =
      (acc ++ l.take (count - acc.length),
       { st with
         keys := l.drop (count - acc.length)
         reserved_keys :=
           if remove then st.reserved_keys
           else (l.take (count - acc.length)).foldl (fun m k => rinsert k.key_ID k m)
             st.reserved_keys
         total_retrieved :=
           st.total_retrieved + (if remove then min (count - acc.length) l.length else 0)
         kme1_retrieved :=
           st.kme1_retrieved +
             (if remove ∧ kme_id = "1" then min (count - acc.length) l.length else 0)
         kme2_retrieved :=
           st.kme2_retrieved +
             (if remove ∧ kme_id = "2" then min (count - acc.length) l.length else 0) }) := by
  intro l
  induction l with
  | nil =>
    intro st acc h
    obtain ⟨ks, rs, dks, mkc, tg, tr, k1, k2, c⟩ := st
    simp only at h
    subst h
    rw [getKeysGo]
    simp
  | cons k rest ih =>
    intro st acc h
    obtain ⟨ks, rs, dks, mkc, tg, tr, k1, k2, c⟩ := st
    simp only at h
    subst h
    rw [getKeysGo]
    by_cases hlt : acc.length < count
    · simp only [hlt, if_true]
      have hsub : count - (acc ++ [k]).length = (count - acc.length) - 1 := by
        simp; omega
      obtain ⟨m, hcm⟩ : ∃ m, count - acc.length = m + 1 :=
        ⟨count - acc.length - 1, by omega⟩
      cases remove with
      | true =>
        simp only [if_true]
        rw [ih _ _ rfl]
        simp only [bumpRetrieved, hsub, hcm, Nat.add_sub_cancel, List.length_cons,
          List.take_succ_cons, List.drop_succ_cons, Prod.mk.injEq, PoolState.mk.injEq,
          List.append_assoc, List.singleton_append, if_true, true_and]
        and_intros <;> first
          | rfl
          | trivial
          | omega
          | (split_ifs <;> omega)
      | false =>
        simp only [Bool.false_eq_true, if_false, false_and]
        rw [ih _ _ rfl]
        simp only [hsub, hcm, Nat.add_sub_cancel, List.length_cons, List.take_succ_cons,
          List.drop_succ_cons, List.foldl_cons, Prod.mk.injEq, PoolState.mk.injEq,
          List.append_assoc, List.singleton_append, Bool.false_eq_true, if_false, false_and,
          add_zero, and_true, true_and]
    · simp only [hlt, if_false]
      have h0 : count - acc.length = 0 := by omega
      simp [h0]

theorem getKeysGo_length_le (remove : Bool) (kme_id : String) (count : Nat) :
    ∀ (waits : List (List Key)) (l : List Key) (st : PoolState) (acc : List Key),
    st.keys = l → acc.length ≤ count →
    ((getKeysGo remove kme_id count waits st acc).1).length ≤ count := by
  intro waits
  induction waits with
  | nil =>
    intro l st acc h hle
    rw [getKeysGo_nil remove kme_id count l st acc h]
    simp
    omega
  | cons batch ws ihw =>
    intro l
    induction l with
    | nil =>
      intro st acc h hle
      rw [getKeysGo]
      by_cases hlt : acc.length < count
      · simp only [h, hlt, if_true]
        exact ihw batch _ acc rfl hle
      · simp only [h, hlt, if_false]
        exact hle
    | cons k rest ihl =>
      intro st acc h hle
      rw [getKeysGo]
      by_cases hlt : acc.length < count
      · simp only [h, hlt, if_true]
        cases remove with
        | true => exact ihl _ (acc ++ [k]) rfl (by simp; omega)
        | false =>
          simp only [Bool.false_eq_true, if_false]
          exact ihl _ (acc ++ [k]) rfl (by simp; omega)
      · simp only [h, hlt, if_false]
        exact hle

/-! ## Reserved-map (dict) lemmas -/

theorem rinsert_fst (k : String) (v : Key) :
    ∀ m : List (String × Key), (rinsert k v m).map Prod.fst =
      if k ∈ m.map Prod.fst then m.map Prod.fst else m.map Prod.fst ++ [k] := by
  intro m
  induction m with
  | nil => simp [rinsert]
  | cons p rest ih =>
    by_cases hp : p.1 = k
    · simp [rinsert, hp]
    · have hne : ¬k = p.1 := fun hh => hp hh.symm
      simp only [rinsert, hp, if_false, List.map_cons, ih, List.mem_cons, hne, false_or]
      by_cases hk : k ∈ rest.map Prod.fst <;> simp [hk]

theorem rlookup_rinsert_self (k : String) (v : Key) :
    ∀ m, rlookup k (rinsert k v m) = some v := by
  intro m
  induction m with
  | nil => simp [rinsert, rlookup]
  | cons p rest ih =>
    by_cases hp : p.1 = k
    · simp [rinsert, rlookup, hp]
    · simp [rinsert, rlookup, hp, ih]

theorem rlookup_rinsert_ne (k k' : String) (v : Key) (h : k' ≠ k) :
    ∀ m, rlookup k' (rinsert k v m) = rlookup k' m := by
  have h1 : ¬(k = k') := fun hh => h hh.symm
  intro m
  induction m with
  | nil =>
    simp only [rinsert, rlookup]
    rw [if_neg h1]
  | cons p rest ih =>
    by_cases hp : p.1 = k
    · have h2 : ¬(p.1 = k') := fun hh => h1 (hp.symm.trans hh)
      simp only [rinsert, hp, if_true, rlookup]
      rw [if_neg h1, if_neg h1]
    · simp only [rinsert, hp, if_false, rlookup, ih]

theorem rlookup_foldl_not_mem (kid : String) :
    ∀ (l : List Key) (m : List (String × Key)), kid ∉ l.map Key.key_ID →
      rlookup kid (l.foldl (fun m k => rinsert k.key_ID k m) m) = rlookup kid m := by
  intro l
  induction l with
  | nil => simp
  | cons x xs ih =>
    intro m hmem
    simp only [List.map_cons, List.mem_cons, not_or] at hmem
    simp only [List.foldl_cons]
    rw [ih _ hmem.2, rlookup_rinsert_ne x.key_ID kid x hmem.1]

theorem rlookup_foldl_mem (k : Key) :
    ∀ (l : List Key) (m : List (String × Key)), (l.map Key.key_ID).Nodup → k ∈ l →
      rlookup k.key_ID (l.foldl (fun m k => rinsert k.key_ID k m) m) = some k := by
  intro l
  induction l with
  | nil => simp
  | cons x xs ih =>
    intro m hnd hk
    simp only [List.map_cons, List.nodup_cons] at hnd
    simp only [List.foldl_cons]
    rcases List.mem_cons.mp hk with hkx | hkxs
    · subst hkx
      rw [rlookup_foldl_not_mem _ _ _ hnd.1, rlookup_rinsert_self]
    · exact ih _ hnd.2 hkxs


/-! ## C3: the shared pool `get_keys` contract -/

/-- C3: every `get_keys(count, requester_id, timeout, remove)` call
returns at most `count` keys; with `remove=true` the returned keys are
popped off the pool and counted in `total_retrieved`; with `remove=false`
they are removed from the pool, stored in `reserved_keys` under their
`key_ID`, and returned as copies; and on timeout (no producer arrivals,
fewer than `count` keys available) the partial list is returned. -/
theorem shared_pool_get_keys_contract (kme_id : String) (count : Nat) (st : PoolState)
    (hnodup : (poolIds st).Nodup) :
    (∀ (remove : Bool) (waits : List (List Key)),
        ((get_keys remove kme_id count waits st).1).length ≤ count) ∧
    ((get_keys true kme_id count [] st).1 = st.keys.take count ∧
      ((get_keys true kme_id count [] st).2).keys = st.keys.drop count ∧
      ((get_keys true kme_id count [] st).2).reserved_keys = st.reserved_keys ∧
      ((get_keys true kme_id count [] st).2).total_retrieved =
        st.total_retrieved + ((get_keys true kme_id count [] st).1).length) ∧
    ((get_keys false kme_id count [] st).1 = st.keys.take count ∧
      ((get_keys false kme_id count [] st).2).keys = st.keys.drop count ∧
      ((get_keys false kme_id count [] st).2).total_retrieved = st.total_retrieved ∧
      ∀ k ∈ (get_keys false kme_id count [] st).1,
        rlookup k.key_ID ((get_keys false kme_id count [] st).2).reserved_keys = some k) ∧
    (st.keys.length < count →
      ((get_keys true kme_id count [] st).1).length = st.keys.length ∧
      ((get_keys false kme_id count [] st).1).length = st.keys.length) := by
  have hnil := fun remove => getKeysGo_nil remove kme_id count st.keys st [] rfl
  refine ⟨?_, ?_, ?_, ?_⟩
  · intro remove waits
    exact getKeysGo_length_le remove kme_id count waits st.keys st [] rfl (by simp)
  · have h := hnil true
    simp only [get_keys, h, if_true, List.nil_append, List.length_nil, Nat.sub_zero]
    and_intros <;> first
      | trivial
      | simp [List.length_take]
  · have h := hnil false
    simp only [get_keys, h, Bool.false_eq_true, if_false, List.nil_append, List.length_nil,
      Nat.sub_zero, add_zero]
    and_intros <;> try trivial
    intro k hk
    have hsub : (st.keys.take count).map Key.key_ID = (poolIds st).take count := by
      simp [poolIds, List.map_take]
    have hnd : ((st.keys.take count).map Key.key_ID).Nodup := by
      rw [hsub]
      exact hnodup.sublist (List.take_sublist count (poolIds st))
    exact rlookup_foldl_mem k _ _ hnd hk
  · intro hlt
    have h1 := hnil true
    have h2 := hnil false
    simp only [get_keys, h1, h2, List.nil_append, List.length_nil, Nat.sub_zero,
      List.length_take]
    omega

/-- Witness for C3 at a concrete two-key pool. -/
theorem shared_pool_get_keys_contract_witness :
    (poolIds twoKeyPool).Nodup ∧
    (get_keys true "1" 3 [] twoKeyPool).1 = twoKeyPool.keys.take 3 :=
  ⟨by decide, (shared_pool_get_keys_contract "1" 3 twoKeyPool (by decide)).2.1.1⟩

/-! ## C5: pool capacity -/

theorem appendGenerated_spec (gen : Nat → Nat → Key) :
    ∀ (n : Nat) (st : PoolState),
    appendGenerated gen n st =
      { st with
        keys := st.keys ++ (List.range n).map (fun j => gen (st.ctr + j) st.default_key_size)
        ctr := st.ctr + n
        total_generated := st.total_generated + n } := by
  intro n
  induction n with
  | zero => intro st; simp [appendGenerated]
  | succ m ih =>
    intro st
    rw [appendGenerated, ih]
    simp only [generate_key_unlocked]
    obtain ⟨ks, rs, dks, mkc, tg, tr, k1, k2, c⟩ := st
    simp only [PoolState.mk.injEq]
    and_intros
    all_goals try trivial
    all_goals try omega
    have harg : (List.range m).map (fun j => gen (c + 1 + j) dks)
        = (List.range m).map (fun j => gen (c + (j + 1)) dks) :=
      List.map_congr_left (fun j _ => by congr 1; omega)
    simp [List.range_succ_eq_map, List.map_map, Function.comp, harg]

/-- C5: the pool size never exceeds `MAX_KEY_COUNT`: `add_keys_batch`
returns `min(count, MAX_KEY_COUNT − |pool|)`, appends exactly that many
keys and stays within capacity; one iteration of the refill loop
generates at most the remaining capacity and stays within it; and
`get_keys` never grows the pool. -/
theorem pool_capacity_contract (gen : Nat → Nat → Key) (st : PoolState) (count : Int)
    (batch_size refill_threshold : Nat)
    (hle : st.keys.length ≤ st.max_key_count) :
    (add_keys_batch gen st count).1 =
      min count ((st.max_key_count : Int) - (st.keys.length : Int)) ∧
    ((add_keys_batch gen st count).2).keys.length =
      st.keys.length + ((add_keys_batch gen st count).1).toNat ∧
    ((add_keys_batch gen st count).2).keys.length ≤ st.max_key_count ∧
    (generation_step gen batch_size refill_threshold st).keys.length ≤ st.max_key_count ∧
    (generation_step gen batch_size refill_threshold st).keys.length - st.keys.length ≤
      st.max_key_count - st.keys.length ∧
    (∀ (remove : Bool) (kme_id : String) (n : Nat),
      ((get_keys remove kme_id n [] st).2).keys.length ≤ st.keys.length) := by
  have hgen : ∀ (rm : Bool) (ki : String) (n : Nat),
      ((get_keys rm ki n [] st).2).keys.length ≤ st.keys.length := by
    intro rm ki n
    rw [get_keys, getKeysGo_nil rm ki n st.keys st [] rfl]
    simp
  have hstep : (generation_step gen batch_size refill_threshold st).keys.length ≤
      st.max_key_count ∧
      (generation_step gen batch_size refill_threshold st).keys.length - st.keys.length ≤
        st.max_key_count - st.keys.length := by
    simp only [generation_step]
    split_ifs with hg
    · rw [appendGenerated_spec]
      simp only [List.length_append, List.length_map, List.length_range]
      omega
    · omega
  have hadd1 : (add_keys_batch gen st count).1 =
      min count ((st.max_key_count : Int) - (st.keys.length : Int)) := by
    simp only [add_keys_batch]
    split_ifs <;> rfl
  have hadd2 : ((add_keys_batch gen st count).2).keys.length =
      st.keys.length + ((add_keys_batch gen st count).1).toNat := by
    simp only [add_keys_batch]
    split_ifs with hpos
    · rw [appendGenerated_spec]
      simp [List.length_append, List.length_map, List.length_range]
    · simp only []
      omega
  have hadd3 : ((add_keys_batch gen st count).2).keys.length ≤ st.max_key_count := by
    rw [hadd2, hadd1]
    omega
  exact ⟨hadd1, hadd2, hadd3, hstep.1, hstep.2, hgen⟩

/-- Witness for C5 on the empty pool. -/
theorem pool_capacity_contract_witness :
    emptyPool.keys.length ≤ emptyPool.max_key_count ∧
    (add_keys_batch sampleGen emptyPool 3).1 =
      min 3 ((emptyPool.max_key_count : Int) - (emptyPool.keys.length : Int)) :=
  ⟨by decide, (pool_capacity_contract sampleGen emptyPool 3 5 5 (by decide)).1⟩

/-! ## C4: pool/reserved location invariant -/

theorem rerase_fst_sublist (k : String) :
    ∀ m : List (String × Key), ((rerase k m).map Prod.fst).Sublist (m.map Prod.fst) := by
  intro m
  induction m with
  | nil => simp [rerase]
  | cons p rest ih =>
    by_cases hp : p.1 = k
    · simp only [rerase, hp, if_true, List.map_cons]
      exact List.sublist_cons_self k (rest.map Prod.fst)
    · simp only [rerase, hp, if_false, List.map_cons]
      exact ih.cons₂ p.1

theorem foldl_rinsert_fst_mem (kid : String) :
    ∀ (l : List Key) (m : List (String × Key)),
      kid ∈ ((l.foldl (fun m k => rinsert k.key_ID k m) m).map Prod.fst) ↔
        kid ∈ m.map Prod.fst ∨ kid ∈ l.map Key.key_ID := by
  intro l
  induction l with
  | nil => simp
  | cons x xs ih =>
    intro m
    simp only [List.foldl_cons, ih (rinsert x.key_ID x m), rinsert_fst, List.map_cons,
      List.mem_cons]
    by_cases hx : x.key_ID ∈ m.map Prod.fst
    · simp only [hx, if_true]
      constructor
      · rintro (h | h)
        · exact Or.inl h
        · exact Or.inr (Or.inr h)
      · rintro (h | h | h)
        · exact Or.inl h
        · exact Or.inl (h ▸ hx)
        · exact Or.inr h
    · simp only [hx, if_false, List.mem_append, List.mem_singleton]
      tauto

theorem foldl_rinsert_fst_nodup :
    ∀ (l : List Key) (m : List (String × Key)), ((m.map Prod.fst).Nodup) →
      (((l.foldl (fun m k => rinsert k.key_ID k m) m).map Prod.fst).Nodup) := by
  intro l
  induction l with
  | nil => exact fun m h => h
  | cons x xs ih =>
    intro m hm
    simp only [List.foldl_cons]
    refine ih _ ?_
    rw [rinsert_fst]
    by_cases hx : x.key_ID ∈ m.map Prod.fst
    · simpa [hx] using hm
    · simp [hx, List.nodup_append, hm]

theorem poolFindRemove_none (kid : String) :
    ∀ l : List Key, poolFindRemove kid l = none ↔ ∀ k ∈ l, k.key_ID ≠ kid := by
  intro l
  induction l with
  | nil => simp [poolFindRemove]
  | cons k rest ih =>
    by_cases hk : k.key_ID = kid
    · simp [poolFindRemove, hk]
    · simp only [poolFindRemove, hk, if_false]
      cases hfr : poolFindRemove kid rest with
      | some p =>
        obtain ⟨f0, r0⟩ := p
        simp only [List.mem_cons]
        constructor
        · intro h; simp at h
        · intro hall
          have hr : ∀ x ∈ rest, x.key_ID ≠ kid :=
            fun x hx => hall x (Or.inr hx)
          rw [ih.mpr hr] at hfr
          simp at hfr
      | none =>
        simp only [List.mem_cons]
        constructor
        · intro _ x hx
          rcases hx with h | h
          · subst h; exact hk
          · exact ih.mp hfr x h
        · intro _; trivial

theorem poolFindRemove_some (kid : String) :
    ∀ (l : List Key) (f : Key) (rest : List Key), poolFindRemove kid l = some (f, rest) →
      f.key_ID = kid ∧ ∃ pre suf, l = pre ++ f :: suf ∧ rest = pre ++ suf := by
  intro l
  induction l with
  | nil => intro f rest h; simp [poolFindRemove] at h
  | cons k tl ih =>
    intro f rest h
    by_cases hk : k.key_ID = kid
    · simp only [poolFindRemove, hk, if_true, Option.some.injEq, Prod.mk.injEq] at h
      obtain ⟨hf, hrest⟩ := h
      subst hf
      exact ⟨hk, [], tl, by simp, hrest.symm⟩
    · simp only [poolFindRemove, hk, if_false] at h
      cases hfr : poolFindRemove kid tl with
      | none => rw [hfr] at h; simp at h
      | some p =>
        rw [hfr] at h
        obtain ⟨f', rest'⟩ := p
        simp only [Option.some.injEq, Prod.mk.injEq] at h
        obtain ⟨hf, hrest⟩ := h
        obtain ⟨hkid, pre, suf, hl, hr⟩ := ih f' rest' hfr
        subst hf
        refine ⟨hkid, k :: pre, suf, by simp [hl], ?_⟩
        rw [← hrest, hr]
        simp

/-- C4: when the pool list has no duplicate ids, the reserved map none,
and the two are disjoint, then every held `key_ID` appears in exactly one
of them, and this invariant is preserved by `add_keys_batch` (given fresh
generated ids), by `get_keys`, and by `get_key_by_id`. -/
theorem pool_location_invariant (gen : Nat → Nat → Key) (st : PoolState)
    (count : Int) (n : Nat) (kme_id key_id : String) (remove : Bool)
    (hinv : PoolInv st)
    (hfresh : ∀ i, st.ctr ≤ i → (gen i st.default_key_size).key_ID ∉ poolIds st ∧
      (gen i st.default_key_size).key_ID ∉ reservedIds st)
    (hinj : ∀ i j, i ≠ j →
      (gen i st.default_key_size).key_ID ≠ (gen j st.default_key_size).key_ID) :
    (∀ kid, kid ∈ poolIds st ∨ kid ∈ reservedIds st →
      (poolIds st ++ reservedIds st).count kid = 1) ∧
    PoolInv (add_keys_batch gen st count).2 ∧
    PoolInv (get_keys remove kme_id n [] st).2 ∧
    PoolInv (get_key_by_id st key_id kme_id remove).2 := by
  obtain ⟨hnp, hnr, hdisj⟩ := hinv
  refine ⟨?_, ?_, ?_, ?_⟩
  · intro kid hk
    rw [List.count_append]
    rcases hk with h | h
    · rw [List.count_eq_one_of_mem hnp h, List.count_eq_zero.mpr (hdisj kid h)]
    · have hnotp : kid ∉ poolIds st := fun hp => hdisj kid hp h
      rw [List.count_eq_zero.mpr hnotp, List.count_eq_one_of_mem hnr h]
  · simp only [add_keys_batch]
    split_ifs with hpos
    · rw [appendGenerated_spec]
      simp only [PoolInv, poolIds, reservedIds, List.map_append, List.map_map]
      have hnew : ∀ a, a ∈ (List.range (min count ((st.max_key_count : Int) -
            (st.keys.length : Int))).toNat).map
            (Key.key_ID ∘ fun j => gen (st.ctr + j) st.default_key_size) →
          a ∉ poolIds st ∧ a ∉ reservedIds st := by
        intro a ha
        obtain ⟨j, _, rfl⟩ := List.mem_map.mp ha
        exact hfresh (st.ctr + j) (by omega)
      refine ⟨?_, hnr, ?_⟩
      · rw [List.nodup_append]
        refine ⟨hnp, ?_, ?_⟩
        · refine (List.nodup_range _).map_on ?_
          intro x hx y hy hxy
          by_contra hne
          exact hinj (st.ctr + x) (st.ctr + y) (by omega) hxy
        · intro a ha hb
          exact (hnew a hb).1 ha
      · intro kid hkid
        rcases List.mem_append.mp hkid with h | h
        · exact hdisj kid h
        · exact (hnew kid h).2
    · exact ⟨hnp, hnr, hdisj⟩
  · rw [get_keys, getKeysGo_nil remove kme_id n st.keys st [] rfl]
    have hdropnd : ((st.keys.drop n).map Key.key_ID).Nodup := by
      rw [List.map_drop]
      exact hnp.sublist (List.drop_sublist n (poolIds st))
    have hdropmem : ∀ kid, kid ∈ (st.keys.drop n).map Key.key_ID → kid ∈ poolIds st := by
      intro kid h
      rw [List.map_drop] at h
      exact (List.drop_sublist n (poolIds st)).mem h
    cases remove with
    | true =>
      simp only [PoolInv, poolIds, reservedIds, if_true, List.length_nil, Nat.sub_zero]
      exact ⟨hdropnd, hnr, fun kid h => hdisj kid (hdropmem kid h)⟩
    | false =>
      simp only [PoolInv, poolIds, reservedIds, Bool.false_eq_true, if_false,
        List.length_nil, Nat.sub_zero]
      have htdisj : ∀ kid, kid ∈ (st.keys.drop n).map Key.key_ID →
          kid ∉ (st.keys.take n).map Key.key_ID := by
        intro kid hd ht
        rw [List.map_take] at ht
        rw [List.map_drop] at hd
        have := List.take_append_drop n (poolIds st)
        rw [← this, List.nodup_append] at hnp
        exact hnp.2.2 ht hd
      refine ⟨hdropnd, foldl_rinsert_fst_nodup _ _ hnr, ?_⟩
      intro kid hkid
      rw [foldl_rinsert_fst_mem]
      rintro (h | h)
      · exact hdisj kid (hdropmem kid hkid) h
      · exact htdisj kid hkid h
  · simp only [get_key_by_id]
    cases hres : rlookup key_id st.reserved_keys with
    | some fk =>
      cases remove with
      | true =>
        simp only [PoolInv, poolIds, reservedIds, bumpRetrieved, if_true]
        refine ⟨hnp, hnr.sublist (rerase_fst_sublist key_id st.reserved_keys), ?_⟩
        intro kid h hq
        exact hdisj kid h ((rerase_fst_sublist key_id st.reserved_keys).mem hq)
      | false =>
        simp only [Bool.false_eq_true, if_false]
        exact ⟨hnp, hnr, hdisj⟩
    | none =>
      cases hpf : poolFindRemove key_id st.keys with
      | some p =>
        obtain ⟨f0, rest0⟩ := p
        obtain ⟨hkid0, pre, suf, hl, hr⟩ := poolFindRemove_some key_id st.keys f0 rest0 hpf
        have hsub : (rest0.map Key.key_ID).Sublist (poolIds st) := by
          simp only [poolIds]
          rw [hr, hl]
          simp only [List.map_append, List.map_cons]
          exact (List.sublist_cons_self f0.key_ID (suf.map Key.key_ID)).append_left _
        cases remove with
        | true =>
          simp only [PoolInv, poolIds, reservedIds, bumpRetrieved, if_true]
          refine ⟨hnp.sublist hsub, hnr, ?_⟩
          intro kid h
          exact hdisj kid (hsub.mem h)
        | false =>
          simp only [Bool.false_eq_true, if_false]
          exact ⟨hnp, hnr, hdisj⟩
      | none => exact ⟨hnp, hnr, hdisj⟩

/-- Witness for C4 at the empty pool with the sample stream. -/
theorem pool_location_invariant_witness :
    PoolInv emptyPool ∧ PoolInv (get_key_by_id emptyPool "k" "1" true).2 :=
  ⟨by simp [PoolInv, poolIds, reservedIds, emptyPool],
   (pool_location_invariant sampleGen emptyPool 3 2 "1" "k" true
      (by simp [PoolInv, poolIds, reservedIds, emptyPool])
      (fun _ _ => by simp [poolIds, reservedIds, emptyPool])
      (fun i j hne heq => hne (by
        simpa [sampleGen] using congrArg (fun s : String => s.data.length) heq))).2.2.2⟩

/-! ## C9: delivered-flag monotonicity and fetch idempotence -/

theorem nodup_map_inj {α β : Type} {f : α → β} {l : List α}
    (hnd : (l.map f).Nodup) {x y : α} (hx : x ∈ l) (hy : y ∈ l) (hf : f x = f y) :
    x = y :=
  List.inj_on_of_nodup_map hnd hx hy hf

theorem delete_by_key_id_sublist (kid : String) :
    ∀ db : MongoDb, (delete_by_key_id kid db).Sublist db := by
  intro db
  induction db with
  | nil => simp [delete_by_key_id]
  | cons b rest ih =>
    by_cases hb : b.keyId == kid
    · simp only [delete_by_key_id, hb, if_true]
      exact List.sublist_cons_self b rest
    · simp only [delete_by_key_id, hb, if_false]
      exact ih.cons₂ b

theorem insertFresh_mono (b : QkdBlock) :
    ∀ (bs : List QkdBlock) (db : MongoDb), (dbKeyIds db).Nodup → b ∈ db →
      b.deliveredToReceiver = true →
      ∀ b' ∈ insertFresh db bs, b'.keyId = b.keyId → b'.deliveredToReceiver = true := by
  intro bs
  induction bs with
  | nil =>
    intro db hnd hb hdel b' hb' hid
    rw [nodup_map_inj hnd hb' hb hid]
    exact hdel
  | cons x xs ih =>
    intro db hnd hb hdel b' hb' hid
    simp only [insertFresh] at hb'
    by_cases hx : x.keyId ∈ dbKeyIds db
    · rw [if_pos hx] at hb'
      exact ih db hnd hb hdel b' hb' hid
    · rw [if_neg hx] at hb'
      refine ih (db ++ [x]) ?_ (List.mem_append_left _ hb) hdel b' hb' hid
      simp only [dbKeyIds, List.map_append, List.map_cons, List.map_nil, List.nodup_append]
      exact ⟨hnd, by simp, by simpa [dbKeyIds] using hx⟩

theorem fetchQuery_mark (db : MongoDb) (r : String) (ids : List String)
    (s : Option String) (mids : List String) :
    fetchQuery (db.map (fun b =>
        if mids.contains b.keyId then { b with deliveredToReceiver := true } else b)) r ids s =
      (fetchQuery db r ids s).map (fun b =>
        if mids.contains b.keyId then { b with deliveredToReceiver := true } else b) := by
  simp only [fetchQuery, List.filter_map]
  congr 1
  refine List.filter_congr ?_
  intro x hx
  by_cases h : x.keyId ∈ mids <;> simp [h, Function.comp]

/-- C9: once a bulk block's `deliveredToReceiver` flag is true, no
bulk-pool operation resets it (given the unique `keyId` index), and
`fetch_keys_by_ids` is idempotent: a repeated fetch with the same ids
returns the same projected key data and leaves the collection unchanged
(the flag flips false→true at most once). -/
theorem bulk_delivered_monotone_fetch_idempotent
    (db : MongoDb) (op : BulkOp) (b : QkdBlock)
    (receiver_id : String) (key_ids : List String) (sender_id : Option String)
    (hnd : (dbKeyIds db).Nodup) (hb : b ∈ db) (hdel : b.deliveredToReceiver = true) :
    (∀ b' ∈ applyBulkOp op db, b'.keyId = b.keyId → b'.deliveredToReceiver = true) ∧
    (fetch_keys_by_ids ((fetch_keys_by_ids db receiver_id key_ids sender_id).2)
        receiver_id key_ids sender_id).1 =
      (fetch_keys_by_ids db receiver_id key_ids sender_id).1 ∧
    (fetch_keys_by_ids ((fetch_keys_by_ids db receiver_id key_ids sender_id).2)
        receiver_id key_ids sender_id).2 =
      (fetch_keys_by_ids db receiver_id key_ids sender_id).2 := by
  have hmarkid : ∀ (mids : List String) (x : QkdBlock),
      (if mids.contains x.keyId then { x with deliveredToReceiver := true } else x).keyId
        = x.keyId := by
    intro mids x
    split_ifs <;> rfl
  have hidem : (fetch_keys_by_ids ((fetch_keys_by_ids db receiver_id key_ids sender_id).2)
        receiver_id key_ids sender_id).1 =
      (fetch_keys_by_ids db receiver_id key_ids sender_id).1 ∧
      (fetch_keys_by_ids ((fetch_keys_by_ids db receiver_id key_ids sender_id).2)
        receiver_id key_ids sender_id).2 =
      (fetch_keys_by_ids db receiver_id key_ids sender_id).2 := by
    by_cases hemp : fetchQuery db receiver_id key_ids sender_id = []
    · simp [fetch_keys_by_ids, hemp]
    · have hne : (((fetchQuery db receiver_id key_ids sender_id).map (·.keyId)).isEmpty)
          = false := by
        cases hq : fetchQuery db receiver_id key_ids sender_id with
        | nil => exact absurd hq hemp
        | cons a l => simp
      simp only [fetch_keys_by_ids, hne, Bool.false_eq_true, if_false]
      rw [fetchQuery_mark]
      have hids : ((fetchQuery db receiver_id key_ids sender_id).map (fun b =>
            if ((fetchQuery db receiver_id key_ids sender_id).map (·.keyId)).contains b.keyId
            then { b with deliveredToReceiver := true } else b)).map (·.keyId) =
          (fetchQuery db receiver_id key_ids sender_id).map (·.keyId) := by
        rw [List.map_map]
        exact List.map_congr_left (fun x _ => hmarkid _ x)
      rw [hids, hne]
      simp only [Bool.false_eq_true, if_false]
      constructor
      · rw [List.map_map]
        refine List.map_congr_left (fun x _ => ?_)
        simp only [Function.comp]
        split_ifs <;> rfl
      · rw [List.map_map]
        refine List.map_congr_left (fun x _ => ?_)
        simp only [Function.comp]
        by_cases h : ∃ a ∈ fetchQuery db receiver_id key_ids sender_id, a.keyId = x.keyId
        · simp [h]
        · simp [h]
  refine ⟨?_, hidem.1, hidem.2⟩
  cases op with
  | insertOne x =>
    intro b' hb' hid
    simp only [applyBulkOp] at hb'
    by_cases hx : x.keyId ∈ dbKeyIds db
    · rw [if_pos hx] at hb'
      rw [nodup_map_inj hnd hb' hb hid]
      exact hdel
    · rw [if_neg hx] at hb'
      rcases List.mem_append.mp hb' with h | h
      · rw [nodup_map_inj hnd h hb hid]
        exact hdel
      · simp only [List.mem_singleton] at h
        subst h
        exact absurd (hid ▸ List.mem_map_of_mem QkdBlock.keyId hb) hx
  | bulkIns bs =>
    intro b' hb' hid
    simp only [applyBulkOp, bulk_insert] at hb'
    split_ifs at hb'
    · exact insertFresh_mono b bs db hnd hb hdel b' hb' hid
    · exact insertFresh_mono b bs db hnd hb hdel b' hb' hid
  | fetchOp r ids s =>
    intro b' hb' hid
    simp only [applyBulkOp, fetch_keys_by_ids] at hb'
    split_ifs at hb' with hie
    · rw [nodup_map_inj hnd hb' hb hid]
      exact hdel
    · obtain ⟨b0, hb0, hb0eq⟩ := List.mem_map.mp hb'
      have hb0id : b0.keyId = b.keyId := by
        rw [← hid, ← hb0eq]
        exact (hmarkid _ b0).symm
      have : b0 = b := nodup_map_inj hnd hb0 hb hb0id
      subst this
      rw [← hb0eq]
      split_ifs <;> simp [hdel]
  | deleteOne kid =>
    intro b' hb' hid
    simp only [applyBulkOp] at hb'
    rw [nodup_map_inj hnd ((delete_by_key_id_sublist kid db).mem hb') hb hid]
    exact hdel
  | cleanup cutoff =>
    intro b' hb' hid
    simp only [applyBulkOp, cleanup_old_delivered] at hb'
    rw [nodup_map_inj hnd (List.mem_of_mem_filter hb') hb hid]
    exact hdel

/-- Witness for C9 on a one-block collection whose block is delivered. -/
theorem bulk_delivered_monotone_fetch_idempotent_witness :
    (dbKeyIds [QkdBlock.mk "b1" "alice" "bob" "data" true 0]).Nodup ∧
    QkdBlock.mk "b1" "alice" "bob" "data" true 0 ∈
      [QkdBlock.mk "b1" "alice" "bob" "data" true 0] ∧
    (QkdBlock.mk "b1" "alice" "bob" "data" true 0).deliveredToReceiver = true ∧
    (∀ b' ∈ applyBulkOp (BulkOp.cleanup 0) [QkdBlock.mk "b1" "alice" "bob" "data" true 0],
      b'.keyId = (QkdBlock.mk "b1" "alice" "bob" "data" true 0).keyId →
      b'.deliveredToReceiver = true) :=
  ⟨by decide, by decide, by decide,
   (bulk_delivered_monotone_fetch_idempotent
      [QkdBlock.mk "b1" "alice" "bob" "data" true 0] (BulkOp.cleanup 0)
      (QkdBlock.mk "b1" "alice" "bob" "data" true 0) "bob" ["b1"] none
      (by decide) (by decide) (by decide)).1⟩

/-! ## C8: bulk-pool round trip -/

theorem insertAsc_mem (a b : QkdBlock) :
    ∀ l : List QkdBlock, a ∈ insertAsc b l ↔ a = b ∨ a ∈ l := by
  intro l
  induction l with
  | nil => simp [insertAsc]
  | cons c rest ih =>
    simp only [insertAsc]
    split_ifs
    · simp only [List.mem_cons, ih]
      try tauto
    · simp only [List.mem_cons]
      try tauto

theorem sortByCreatedAt_mem (a : QkdBlock) :
    ∀ l : List QkdBlock, a ∈ sortByCreatedAt l ↔ a ∈ l := by
  intro l
  induction l with
  | nil => simp [sortByCreatedAt]
  | cons c rest ih =>
    simp only [sortByCreatedAt, List.foldr_cons] at ih ⊢
    rw [insertAsc_mem]
    simp only [ih, List.mem_cons]

theorem insertAsc_length (b : QkdBlock) :
    ∀ l : List QkdBlock, (insertAsc b l).length = l.length + 1 := by
  intro l
  induction l with
  | nil => simp [insertAsc]
  | cons c rest ih =>
    simp only [insertAsc]
    split_ifs <;> simp [ih]

theorem sortByCreatedAt_length :
    ∀ l : List QkdBlock, (sortByCreatedAt l).length = l.length := by
  intro l
  induction l with
  | nil => simp [sortByCreatedAt]
  | cons c rest ih =>
    simp only [sortByCreatedAt, List.foldr_cons] at ih ⊢
    rw [insertAsc_length, ih]
    simp

theorem insertFresh_append :
    ∀ (bs : List QkdBlock) (db : MongoDb), (∀ b ∈ bs, b.keyId ∉ dbKeyIds db) →
      ((bs.map (·.keyId)).Nodup) → insertFresh db bs = db ++ bs := by
  intro bs
  induction bs with
  | nil => intro db _ _; simp [insertFresh]
  | cons x xs ih =>
    intro db hfresh hnd
    simp only [List.map_cons, List.nodup_cons] at hnd
    have hx : x.keyId ∉ dbKeyIds db := hfresh x (List.mem_cons_self x xs)
    simp only [insertFresh, hx, if_false]
    rw [ih (db ++ [x]) ?_ hnd.2]
    · simp
    · intro b hbmem
      simp only [dbKeyIds, List.map_append, List.map_cons, List.map_nil, List.mem_append,
        List.mem_cons, List.not_mem_nil]
      rintro (h | h | h)
      · exact hfresh b (List.mem_cons_of_mem x hbmem) h
      · exact hnd.1 (h ▸ List.mem_map_of_mem (·.keyId) hbmem)
      · exact h

/-- C8 (amended): for a valid `request_pool` whose generated ids are
fresh, the response is 201 with `count` key ids; `get_pending` reports
every returned id **provided** the receiver's total pending count fits
into the requested limit; and `fetch` with the returned ids yields
exactly `|K|` blocks with an empty `missingKeyIds`. -/
theorem bulk_round_trip_amended (bgen : Nat → String × String) (ctr now : Nat)
    (db : MongoDb) (sender_id receiver_id : String) (count : Int) (limit : Int)
    (hs : sender_id ≠ "") (hr : receiver_id ≠ "")
    (h1 : 1 ≤ count) (h2 : count ≤ 10000)
    (hl1 : 1 ≤ limit) (hl2 : limit ≤ 10000)
    (hfresh : ∀ i, (bgen i).1 ∉ dbKeyIds db)
    (hinj : ∀ i j, (bgen i).1 = (bgen j).1 → i = j)
    (hcap : count_pending db receiver_id none + count.toNat ≤ limit.toNat) :
    (request_key_pool bgen ctr now db sender_id receiver_id count).1.status = 201 ∧
    ((request_key_pool bgen ctr now db sender_id receiver_id count).1.keyIds).length =
      count.toNat ∧
    (∀ kid ∈ (request_key_pool bgen ctr now db sender_id receiver_id count).1.keyIds,
      kid ∈ (get_pending_keys (request_key_pool bgen ctr now db sender_id receiver_id count).2
        receiver_id none (some limit)).pendingKeyIds) ∧
    (fetch_keys (request_key_pool bgen ctr now db sender_id receiver_id count).2
      receiver_id none
      (request_key_pool bgen ctr now db sender_id receiver_id count).1.keyIds).1.status
      = 200 ∧
    (fetch_keys (request_key_pool bgen ctr now db sender_id receiver_id count).2
      receiver_id none
      (request_key_pool bgen ctr now db sender_id receiver_id count).1.keyIds).1.fetchedCount
      = count.toNat ∧
    (fetch_keys (request_key_pool bgen ctr now db sender_id receiver_id count).2
      receiver_id none
      (request_key_pool bgen ctr now db sender_id receiver_id count).1.keyIds).1.missingKeyIds
      = [] := by
  have hn1 : ¬(count < 1) := not_lt.2 h1
  have hn2 : ¬(count > (MAX_BLOCKS_PER_REQUEST : Int)) := by
    simp only [MAX_BLOCKS_PER_REQUEST]
    omega
  simp only [request_key_pool, generate_key_block, if_neg hs, if_neg hr, if_neg hn1,
    if_neg hn2]
  set B := (List.range count.toNat).map (fun i =>
    QkdBlock.mk (bgen (ctr + i)).1 sender_id receiver_id (bgen (ctr + i)).2 false now)
    with hB
  have hidsmap : B.map (·.keyId) =
      (List.range count.toNat).map (fun i => (bgen (ctr + i)).1) := by
    rw [hB, List.map_map]
    rfl
  have hndids : (B.map (·.keyId)).Nodup := by
    rw [hidsmap]
    refine (List.nodup_range _).map_on ?_
    intro x _ y _ hxy
    have := hinj (ctr + x) (ctr + y) hxy
    omega
  have hfreshb : ∀ b ∈ B, b.keyId ∉ dbKeyIds db := by
    intro b hbm
    rw [hB] at hbm
    obtain ⟨i, _, rfl⟩ := List.mem_map.mp hbm
    exact hfresh (ctr + i)
  have hins : insertFresh db B = db ++ B := insertFresh_append B db hfreshb hndids
  have hbi : bulk_insert db B = (B.length, db ++ B) := by
    simp [bulk_insert, hins]
  rw [hbi]
  have hlb : B.length = count.toNat := by simp [hB]
  have htk : (B.map (·.keyId)).take B.length = B.map (·.keyId) := by
    rw [← List.length_map B (·.keyId), List.take_length]
  simp only [htk]
  have hpq : pendingQuery (db ++ B) receiver_id none =
      pendingQuery db receiver_id none ++ B := by
    simp only [pendingQuery, List.filter_append]
    congr 1
    refine List.filter_eq_self.mpr ?_
    intro b hbm
    rw [hB] at hbm
    obtain ⟨i, _, rfl⟩ := List.mem_map.mp hbm
    simp
  have hpql : (pendingQuery (db ++ B) receiver_id none).length ≤ limit.toNat := by
    rw [hpq]
    simp only [List.length_append, hlb]
    simp only [count_pending] at hcap
    omega
  have hlr : ¬(limit < 1 ∨ limit > 10000) := by omega
  have hpend : ∀ kid ∈ B.map (·.keyId),
      kid ∈ (get_pending_keys (db ++ B) receiver_id none (some limit)).pendingKeyIds := by
    intro kid hkid
    obtain ⟨b, hbm, rfl⟩ := List.mem_map.mp hkid
    simp only [get_pending_keys, if_neg hr, Option.getD_some, hlr, if_false,
      find_pending_for_receiver]
    have hsl : (sortByCreatedAt (pendingQuery (db ++ B) receiver_id none)).take limit.toNat =
        sortByCreatedAt (pendingQuery (db ++ B) receiver_id none) := by
      refine List.take_of_length_le ?_
      rw [sortByCreatedAt_length]
      exact hpql
    rw [hsl]
    have hbmem : b ∈ sortByCreatedAt (pendingQuery (db ++ B) receiver_id none) := by
      rw [sortByCreatedAt_mem, hpq]
      exact List.mem_append_right _ hbm
    exact List.mem_map_of_mem (fun x : QkdBlock => x.keyId) hbmem
  have hKlen : (B.map (·.keyId)).length = count.toNat := by
    rw [List.length_map]
    exact hlb
  have hKne : (B.map (·.keyId)).isEmpty = false := by
    cases hK : B.map (·.keyId) with
    | nil => rw [hK] at hKlen; simp at hKlen; omega
    | cons a l => simp
  have hKmax : ¬((B.map (·.keyId)).length > MAX_BLOCKS_PER_REQUEST) := by
    rw [hKlen]
    simp only [MAX_BLOCKS_PER_REQUEST]
    omega
  have hfq : fetchQuery (db ++ B) receiver_id (B.map (·.keyId)) none = B := by
    simp only [fetchQuery, List.filter_append]
    have hdbnil : List.filter (fun b => (B.map (·.keyId)).contains b.keyId &&
        b.receiverId == receiver_id &&
        (match (none : Option String) with | none => true | some s => b.senderId == s)) db
        = [] := by
      rw [List.filter_eq_nil_iff]
      intro b hbm
      simp only [Bool.and_eq_true, not_and]
      intro hcont
      exfalso
      have hmem : b.keyId ∈ B.map (·.keyId) := by
        have := List.elem_iff.mp hcont.1
        exact this
      rw [hidsmap] at hmem
      obtain ⟨i, _, hi⟩ := List.mem_map.mp hmem
      exact hfresh (ctr + i) (hi ▸ List.mem_map_of_mem (·.keyId) hbm)
    have hBall : List.filter (fun b => (B.map (·.keyId)).contains b.keyId &&
        b.receiverId == receiver_id &&
        (match (none : Option String) with | none => true | some s => b.senderId == s)) B
        = B := by
      rw [List.filter_eq_self]
      intro b hbm
      have hcont : (B.map (·.keyId)).contains b.keyId = true :=
        List.elem_iff.mpr (List.mem_map_of_mem (·.keyId) hbm)
      rw [hB] at hbm
      obtain ⟨i, _, rfl⟩ := List.mem_map.mp hbm
      simp only [Bool.and_eq_true]
      exact ⟨⟨hcont, by simp⟩, by simp⟩
    rw [hdbnil, hBall, List.nil_append]
  have hfetch : fetch_keys (db ++ B) receiver_id none (B.map (·.keyId)) =
      (⟨200, B.map (fun b => FetchedKey.mk b.keyId b.keyData b.senderId), B.length,
        []⟩, (fetch_keys_by_ids (db ++ B) receiver_id (B.map (·.keyId)) none).2) := by
    simp only [fetch_keys, if_neg hr, hKne, Bool.false_eq_true, if_false, if_neg hKmax]
    simp only [fetch_keys_by_ids, hfq]
    have hfids : (B.map (fun b => FetchedKey.mk b.keyId b.keyData b.senderId)).map
        (·.keyId) = B.map (·.keyId) := by
      rw [List.map_map]
      rfl
    rw [hfids]
    have hmiss : (B.map (·.keyId)).filter
        (fun kid => !((B.map (·.keyId)).contains kid)) = [] := by
      rw [List.filter_eq_nil_iff]
      intro kid hkid
      simpa using hkid
    rw [hmiss]
    simp [List.length_map]
  refine ⟨?_, ?_, hpend, ?_, ?_, ?_⟩
  all_goals first
    | trivial
    | exact hKlen
    | (rw [hfetch]; try trivial; try exact hlb)

/-- C8 counterexample to the claim as stated: on an empty store,
`request_pool("alice","bob",2)` succeeds with key ids `["", "q"]`, yet
the `get_pending("bob")` call with `limit=1` (a legal call of the
`get_pending` operation) does not report `"q"` as pending, so K is not
contained in the pending set. -/
theorem bulk_round_trip_counterexample :
    (request_key_pool sampleBlockGen 0 0 [] "alice" "bob" 2).1.status = 201 ∧
    "q" ∈ (request_key_pool sampleBlockGen 0 0 [] "alice" "bob" 2).1.keyIds ∧
    "q" ∉ (get_pending_keys (request_key_pool sampleBlockGen 0 0 [] "alice" "bob" 2).2
        "bob" none (some 1)).pendingKeyIds := by
  decide

/-- Witness for the amended C8 on an empty store. -/
theorem bulk_round_trip_amended_witness :
    ("alice" : String) ≠ "" ∧
    (request_key_pool sampleBlockGen 0 0 [] "alice" "bob" 2).1.status = 201 ∧
    (fetch_keys (request_key_pool sampleBlockGen 0 0 [] "alice" "bob" 2).2 "bob" none
      (request_key_pool sampleBlockGen 0 0 [] "alice" "bob" 2).1.keyIds).1.missingKeyIds
      = [] :=
  ⟨by decide,
   (bulk_round_trip_amended sampleBlockGen 0 0 [] "alice" "bob" 2 1000
      (by decide) (by decide) (by decide) (by decide) (by decide) (by decide)
      (fun i => by simp [dbKeyIds])
      (fun i j h => by
        simpa [sampleBlockGen] using congrArg (fun s : String => s.data.length) h)
      (by decide)).1,
   (bulk_round_trip_amended sampleBlockGen 0 0 [] "alice" "bob" 2 1000
      (by decide) (by decide) (by decide) (by decide) (by decide) (by decide)
      (fun i => by simp [dbKeyIds])
      (fun i j h => by
        simpa [sampleBlockGen] using congrArg (fun s : String => s.data.length) h)
      (by decide)).2.2.2.2.2⟩

/-! ## C6: enc_keys boundary checks -/

/-- C6 counterexample to the claim as stated: a POST `enc_keys` request
with `number = 0` (and an in-range size) is not rejected: the handler
returns 200 with an empty key list, and even appends an empty bucket to
the key store and broadcasts it. -/
theorem enc_keys_number_zero_counterexample :
    (get_key sampleGen sampleCfg sampleScanner ⟨true, some 0, some 256⟩ "B"
      ⟨[], emptyPool⟩).1.status = 200 ∧
    (get_key sampleGen sampleCfg sampleScanner ⟨true, some 0, some 256⟩ "B"
      ⟨[], emptyPool⟩).1.keys = [] ∧
    (get_key sampleGen sampleCfg sampleScanner ⟨true, some 0, some 256⟩ "B"
      ⟨[], emptyPool⟩).2.1.store ≠ [] := by
  decide

/-- C6 (amended): a requested `number` above `MAX_KEYS_PER_REQUEST` is
rejected with 400, and an in-count request whose size lies above
`MAX_KEY_SIZE*8` or below `MIN_KEY_SIZE*8` is rejected with 400; in each
case no keys are delivered, the state is untouched and nothing is
broadcast.  (`number = 0` has no check and is accepted.) -/
theorem enc_keys_bounds_400 (gen : Nat → Nat → Key) (cfg : Config)
    (scanner : List KmeEntry) (req : EncRequest) (slave_sae_id : String) (st : KmeState) :
    ((if req.isPost then req.number.getD 1 else 1) > cfg.max_keys_per_request →
      get_key gen cfg scanner req slave_sae_id st =
        (⟨400, some "Number of requested keys exceed allowed max.", []⟩, st, [])) ∧
    ((if req.isPost then req.number.getD 1 else 1) ≤ cfg.max_keys_per_request →
      (if req.isPost then req.size.getD (cfg.default_key_size * 8)
        else cfg.default_key_size) > cfg.max_key_size * 8 →
      get_key gen cfg scanner req slave_sae_id st =
        (⟨400, some "The requested key size is too large.", []⟩, st, [])) ∧
    ((if req.isPost then req.number.getD 1 else 1) ≤ cfg.max_keys_per_request →
      (if req.isPost then req.size.getD (cfg.default_key_size * 8)
        else cfg.default_key_size) ≤ cfg.max_key_size * 8 →
      (if req.isPost then req.size.getD (cfg.default_key_size * 8)
        else cfg.default_key_size) < cfg.min_key_size * 8 →
      get_key gen cfg scanner req slave_sae_id st =
        (⟨400, some "The requested key size is too small.", []⟩, st, [])) := by
  refine ⟨?_, ?_, ?_⟩
  · intro hnum
    simp only [get_key, if_pos hnum]
  · intro hnum hsize
    simp only [get_key, if_neg (not_lt.2 hnum), if_pos hsize]
  · intro hnum hmax hmin
    simp only [get_key, if_neg (not_lt.2 hnum), if_neg (not_lt.2 hmax), if_pos hmin]

/-- Witness for the amended C6: `number = 6` exceeds the limit of 5. -/
theorem enc_keys_bounds_400_witness :
    ((if (true : Bool) then (some 6 : Option Nat).getD 1 else 1) >
      sampleCfg.max_keys_per_request) ∧
    get_key sampleGen sampleCfg sampleScanner ⟨true, some 6, some 256⟩ "B" ⟨[], emptyPool⟩ =
      (⟨400, some "Number of requested keys exceed allowed max.", []⟩, ⟨[], emptyPool⟩, []) :=
  ⟨by decide,
   (enc_keys_bounds_400 sampleGen sampleCfg sampleScanner ⟨true, some 6, some 256⟩ "B"
      ⟨[], emptyPool⟩).1 (by decide)⟩

/-! ## C7: unknown slave SAE -/

/-- C7 counterexample to the claim as stated: with an empty peer
directory, `status` for SAE "B" fails 400 as claimed, but `enc_keys` for
the same unknown SAE does not: it falls back to direct mode and returns
200 with a key. -/
theorem enc_unknown_sae_counterexample :
    (get_status sampleCfg "1" [] "B" ⟨[], twoKeyPool⟩).1.status = 400 ∧
    (get_key sampleGen sampleCfg [] ⟨true, some 1, some 256⟩ "B"
      ⟨[], twoKeyPool⟩).1.status = 200 := by
  constructor
  · decide
  · have hpool : get_keys false "1" 1 [] twoKeyPool =
        ([Key.mk "p1" "x"],
         PoolState.mk [Key.mk "p2" "y"] [("p1", Key.mk "p1" "x")] 32 10 0 0 0 0 0) := by
      rw [get_keys, getKeysGo_nil false "1" 1 twoKeyPool.keys twoKeyPool [] rfl]
      decide
    simp [get_key, encAcquireLoop, client_get_key, hpool, sampleCfg,
      find_kme, store_get_keys, get_sae_key_container, keystore_append, append_keys]

/-- C7 (amended): a request naming a slave SAE the scanner has not
discovered makes `status` fail with 400, while `enc_keys` (within its
bounds) proceeds in direct mode: the response is 200 or 503 and any
broadcast uses the locally attached SAE as master. -/
theorem unknown_slave_sae_behavior (gen : Nat → Nat → Key) (cfg : Config)
    (kme_id_env : String) (scanner : List KmeEntry) (req : EncRequest)
    (slave_sae_id : String) (st : KmeState)
    (hkme : find_kme scanner slave_sae_id = none)
    (hnum : (if req.isPost then req.number.getD 1 else 1) ≤ cfg.max_keys_per_request)
    (hsmax : (if req.isPost then req.size.getD (cfg.default_key_size * 8)
      else cfg.default_key_size) ≤ cfg.max_key_size * 8)
    (hsmin : cfg.min_key_size * 8 ≤ (if req.isPost then req.size.getD
      (cfg.default_key_size * 8) else cfg.default_key_size))
    (hcap : (store_get_keys st.store cfg.attached_sae_id slave_sae_id).length +
      (if req.isPost then req.number.getD 1 else 1) ≤ cfg.max_key_count) :
    (get_status cfg kme_id_env scanner slave_sae_id st).1 =
      ⟨400, some "The given slave SAE ID is unknown by this KME.", []⟩ ∧
    ((get_key gen cfg scanner req slave_sae_id st).1.status = 200 ∨
      (get_key gen cfg scanner req slave_sae_id st).1.status = 503) ∧
    (∀ ev ∈ (get_key gen cfg scanner req slave_sae_id st).2.2,
      ev = Event.sendKeys cfg.attached_sae_id slave_sae_id
        (get_key gen cfg scanner req slave_sae_id st).1.keys) := by
  refine ⟨?_, ?_⟩
  · simp only [get_status, hkme]
  · simp only [get_key, if_neg (not_lt.2 hnum), if_neg (not_lt.2 hsmax),
      if_neg (not_lt.2 hsmin), hkme, if_neg (not_lt.2 hcap)]
    rcases hacq : encAcquireLoop gen cfg (if req.isPost then req.size.getD
      (cfg.default_key_size * 8) else cfg.default_key_size)
      (if req.isPost then req.number.getD 1 else 1) st.pool [] with ⟨o, pool'⟩
    cases o with
    | none => simp [keystore_append]
    | some ks => simp [keystore_append]

/-- Witness for the amended C7 with an empty scanner directory. -/
theorem unknown_slave_sae_behavior_witness :
    find_kme [] "B" = none ∧
    (get_status sampleCfg "1" [] "B" ⟨[], twoKeyPool⟩).1 =
      ⟨400, some "The given slave SAE ID is unknown by this KME.", []⟩ :=
  ⟨by decide,
   (unknown_slave_sae_behavior sampleGen sampleCfg "1" [] ⟨true, some 1, some 256⟩ "B"
      ⟨[], twoKeyPool⟩ (by decide) (by decide) (by decide) (by decide) (by decide)).1⟩


/-! ## C10: GET enc_keys uses DEFAULT_KEY_SIZE bytes as bits -/

/-- C10 counterexample to the claim as stated: with `DEFAULT_KEY_SIZE=32`,
`MIN_KEY_SIZE=1`, `MAX_KEY_SIZE=2`, a GET request satisfies the claim's
"otherwise" condition (`32 ≥ MIN_KEY_SIZE*8 = 8`), so the claim predicts a
synthesized one-off key; the code instead rejects with 400 ("too large",
since `32 > MAX_KEY_SIZE*8 = 16`) and delivers nothing. -/
theorem enc_get_default_size_counterexample :
    sampleCfg2.min_key_size * 8 ≤ sampleCfg2.default_key_size ∧
    (get_key sampleGen sampleCfg2 sampleScanner ⟨false, none, none⟩ "B"
      ⟨[], emptyPool⟩).1.status = 400 ∧
    (get_key sampleGen sampleCfg2 sampleScanner ⟨false, none, none⟩ "B"
      ⟨[], emptyPool⟩).1.keys = [] := by
  decide

/-- C10 (amended): a GET `enc_keys` request uses `DEFAULT_KEY_SIZE` (a
byte count) as the requested bit size, so with `DEFAULT_KEY_SIZE ≠ 0` the
shared pool is never touched: below `MIN_KEY_SIZE*8` the request is
rejected 400 with no state change; within `[MIN_KEY_SIZE*8,
MAX_KEY_SIZE*8]` (and sane number/capacity bounds) the pool client
synthesizes one fresh key of `⌈DEFAULT_KEY_SIZE/8⌉` bytes. -/
theorem enc_get_default_bytes (gen : Nat → Nat → Key) (cfg : Config)
    (scanner : List KmeEntry) (slave_sae_id : String) (st : KmeState)
    (hD : cfg.default_key_size ≠ 0) :
    ((get_key gen cfg scanner ⟨false, none, none⟩ slave_sae_id st).2.1).pool.keys
      = st.pool.keys ∧
    ((get_key gen cfg scanner ⟨false, none, none⟩ slave_sae_id st).2.1).pool.reserved_keys
      = st.pool.reserved_keys ∧
    (cfg.default_key_size < cfg.min_key_size * 8 →
      (get_key gen cfg scanner ⟨false, none, none⟩ slave_sae_id st).1.status = 400 ∧
      (get_key gen cfg scanner ⟨false, none, none⟩ slave_sae_id st).1.keys = [] ∧
      (get_key gen cfg scanner ⟨false, none, none⟩ slave_sae_id st).2.1 = st ∧
      (get_key gen cfg scanner ⟨false, none, none⟩ slave_sae_id st).2.2 = []) ∧
    (1 ≤ cfg.max_keys_per_request →
      cfg.min_key_size * 8 ≤ cfg.default_key_size →
      cfg.default_key_size ≤ cfg.max_key_size * 8 →
      (∀ M S, (store_get_keys st.store M S).length + 1 ≤ cfg.max_key_count) →
      (get_key gen cfg scanner ⟨false, none, none⟩ slave_sae_id st).1.status = 200 ∧
      (get_key gen cfg scanner ⟨false, none, none⟩ slave_sae_id st).1.keys =
        [gen st.pool.ctr ((cfg.default_key_size + 7) / 8)]) := by
  have hloop : encAcquireLoop gen cfg cfg.default_key_size 1 st.pool [] =
      (some [gen st.pool.ctr ((cfg.default_key_size + 7) / 8)],
       { st.pool with ctr := st.pool.ctr + 1 }) := by
    have hcond : cfg.default_key_size ≠ 0 ∧
        cfg.default_key_size ≠ cfg.default_key_size * 8 := ⟨hD, by omega⟩
    simp [encAcquireLoop, client_get_key, hcond]
  refine ⟨?_, ?_, ?_, ?_⟩
  · simp only [get_key, Bool.false_eq_true, if_false]
    split_ifs <;> first | rfl | (rw [hloop])
  · simp only [get_key, Bool.false_eq_true, if_false]
    split_ifs <;> first | rfl | (rw [hloop])
  · intro hmin
    simp only [get_key, Bool.false_eq_true, if_false]
    split_ifs
    all_goals exact ⟨rfl, rfl, rfl, rfl⟩
  · intro h1 h2 h3 hcap
    simp only [get_key, Bool.false_eq_true, if_false,
      if_neg (not_lt.2 h1), if_neg (not_lt.2 h3), if_neg (not_lt.2 h2)]
    rw [if_neg (not_lt.2 (hcap _ _)), hloop]
    exact ⟨rfl, rfl⟩

/-- Witness for the amended C10: GET with the sample configuration
synthesizes a 4-byte one-off key (`⌈32/8⌉ = 4`). -/
theorem enc_get_default_bytes_witness :
    sampleCfg3.default_key_size ≠ 0 ∧
    ((get_key sampleGen sampleCfg3 sampleScanner ⟨false, none, none⟩ "B"
        ⟨[], emptyPool⟩).1.status = 200 ∧
      (get_key sampleGen sampleCfg3 sampleScanner ⟨false, none, none⟩ "B"
        ⟨[], emptyPool⟩).1.keys =
          [sampleGen emptyPool.ctr ((sampleCfg3.default_key_size + 7) / 8)]) :=
  ⟨by decide,
   (enc_get_default_bytes sampleGen sampleCfg3 sampleScanner "B" ⟨[], emptyPool⟩
      (by decide)).2.2.2 (by decide) (by decide) (by decide)
      (fun M S => by simp [store_get_keys, get_sae_key_container, sampleCfg3])⟩

/-! ## C2: dec_keys result rules -/

theorem decRecover_none :
    ∀ (missing : List String) (pool : PoolState),
      (∀ kid ∈ missing, rlookup kid pool.reserved_keys = none ∧
        (∀ k ∈ pool.keys, k.key_ID ≠ kid)) →
      decRecover missing pool = ([], pool) := by
  intro missing
  induction missing with
  | nil => intro pool _; rfl
  | cons kid rest ih =>
    intro pool h
    have h0 := h kid (List.mem_cons_self kid rest)
    have hfr : poolFindRemove kid pool.keys = none :=
      (poolFindRemove_none kid pool.keys).mpr h0.2
    have hstep : get_key_by_id pool kid "1" true = (none, pool) := by
      simp only [get_key_by_id, h0.1, hfr]
    simp only [decRecover, List.foldl_cons, hstep]
    exact ih pool (fun kid hk => h kid (List.mem_cons_of_mem _ hk))

theorem get_container_no_match (M S : String) :
    ∀ l : Store, (∀ b ∈ l, ¬(b.master_sae_id = M ∧ b.slave_sae_id = S)) →
      get_sae_key_container l M S = [] := by
  intro l h
  simp only [get_sae_key_container]
  rw [List.filter_eq_nil_iff]
  intro b hb
  simp only [Bool.and_eq_true, beq_iff_eq, not_and]
  intro h1 h2
  exact h b hb ⟨h1, h2⟩

theorem store_get_keys_no_match (M S : String) (l : Store)
    (h : ∀ b ∈ l, ¬(b.master_sae_id = M ∧ b.slave_sae_id = S)) :
    store_get_keys l M S = [] := by
  simp only [store_get_keys, get_container_no_match M S l h]

/-- C2 (amended): a `dec_keys` request is classified by its *selection*
(the bucket matches plus the pool recoveries): an empty selection gives
404 with the message `None of the requested keys exist.` and no store
change; a selection whose length differs from the request-list length
gives 206 with the found keys and no store removal (this occurs even when
every requested key is found, e.g. for duplicated requested ids); equal
lengths give 200 with the keys, the store removal and its broadcast.
When no requested id is held anywhere, the state is entirely untouched. -/
theorem dec_keys_result_cases (st : KmeState) (master_sae_id slave_sae_id : String)
    (requested_keys : List String) :
    ((decSelection st master_sae_id slave_sae_id requested_keys).1 = [] →
      get_key_with_ids st master_sae_id slave_sae_id requested_keys =
        (⟨404, some "None of the requested keys exist.", []⟩,
         { st with pool := (decSelection st master_sae_id slave_sae_id requested_keys).2 },
         [])) ∧
    ((decSelection st master_sae_id slave_sae_id requested_keys).1 ≠ [] →
      requested_keys.length ≠
        ((decSelection st master_sae_id slave_sae_id requested_keys).1).length →
      get_key_with_ids st master_sae_id slave_sae_id requested_keys =
        (⟨206, some "Some keys missing.",
          (decSelection st master_sae_id slave_sae_id requested_keys).1⟩,
         { st with pool := (decSelection st master_sae_id slave_sae_id requested_keys).2 },
         [])) ∧
    ((decSelection st master_sae_id slave_sae_id requested_keys).1 ≠ [] →
      requested_keys.length =
        ((decSelection st master_sae_id slave_sae_id requested_keys).1).length →
      get_key_with_ids st master_sae_id slave_sae_id requested_keys =
        (⟨200, none, (decSelection st master_sae_id slave_sae_id requested_keys).1⟩,
         ⟨remove_keys st.store master_sae_id slave_sae_id
            (decSelection st master_sae_id slave_sae_id requested_keys).1,
          (decSelection st master_sae_id slave_sae_id requested_keys).2⟩,
         [Event.removeSent master_sae_id slave_sae_id
            (decSelection st master_sae_id slave_sae_id requested_keys).1])) ∧
    ((∀ kid ∈ requested_keys,
        (∀ k ∈ store_get_keys st.store master_sae_id slave_sae_id ++
            store_get_keys st.store slave_sae_id master_sae_id, k.key_ID ≠ kid) ∧
        rlookup kid st.pool.reserved_keys = none ∧
        (∀ k ∈ st.pool.keys, k.key_ID ≠ kid)) →
      get_key_with_ids st master_sae_id slave_sae_id requested_keys =
        (⟨404, some "None of the requested keys exist.", []⟩, st, [])) := by
  refine ⟨?_, ?_, ?_, ?_⟩
  · intro h
    simp only [decSelection] at h
    simp only [get_key_with_ids, decSelection, h]
    simp
  · intro h hlen
    simp only [decSelection] at h hlen
    have hne : ¬((store_get_keys st.store master_sae_id slave_sae_id ++
        store_get_keys st.store slave_sae_id master_sae_id).filter
          (fun k => requested_keys.contains k.key_ID) ++
        (decRecover ((requested_keys.filter (fun kid =>
          !((((store_get_keys st.store master_sae_id slave_sae_id ++
            store_get_keys st.store slave_sae_id master_sae_id).filter
              (fun k => requested_keys.contains k.key_ID)).map (·.key_ID)).contains kid))))
          st.pool).1).length = 0 := by
      intro h0
      exact h (List.length_eq_zero.mp h0)
    simp only [get_key_with_ids, decSelection, if_neg hne, if_pos hlen]
  · intro h hlen
    simp only [decSelection] at h hlen
    have hne : ¬((store_get_keys st.store master_sae_id slave_sae_id ++
        store_get_keys st.store slave_sae_id master_sae_id).filter
          (fun k => requested_keys.contains k.key_ID) ++
        (decRecover ((requested_keys.filter (fun kid =>
          !((((store_get_keys st.store master_sae_id slave_sae_id ++
            store_get_keys st.store slave_sae_id master_sae_id).filter
              (fun k => requested_keys.contains k.key_ID)).map (·.key_ID)).contains kid))))
          st.pool).1).length = 0 := by
      intro h0
      exact h (List.length_eq_zero.mp h0)
    simp only [get_key_with_ids, decSelection, if_neg hne,
      if_neg (fun hh : _ ≠ _ => hh hlen), keystore_remove]
    simp
  · intro hall
    have hsel0 : (store_get_keys st.store master_sae_id slave_sae_id ++
        store_get_keys st.store slave_sae_id master_sae_id).filter
          (fun k => requested_keys.contains k.key_ID) = [] := by
      rw [List.filter_eq_nil_iff]
      intro k hk hc
      exact (hall k.key_ID (List.elem_iff.mp hc)).1 k hk rfl
    have hrec : decRecover requested_keys st.pool = ([], st.pool) :=
      decRecover_none requested_keys st.pool
        (fun kid hk => ⟨(hall kid hk).2.1, (hall kid hk).2.2⟩)
    simp only [get_key_with_ids, hsel0]
    simp only [List.map_nil, List.contains_nil, Bool.not_false, List.filter_true,
      List.nil_append, hrec]
    simp

/-- Witness for the amended C2: an empty state yields the 404 branch. -/
theorem dec_keys_result_cases_witness :
    (decSelection ⟨[], emptyPool⟩ "A" "B" ["x"]).1 = [] ∧
    get_key_with_ids ⟨[], emptyPool⟩ "A" "B" ["x"] =
      (⟨404, some "None of the requested keys exist.", []⟩,
       { store := ([] : Store), pool := (decSelection ⟨[], emptyPool⟩ "A" "B" ["x"]).2 },
       []) :=
  ⟨by decide, (dec_keys_result_cases ⟨[], emptyPool⟩ "A" "B" ["x"]).1 (by decide)⟩

/-- C2 counterexample to the claim as stated: with key `a` stored in the
(A,B) bucket, the request `["a","a"]` finds every requested key, yet the
response is 206 (not 200) because the length comparison sees 2 ≠ 1, and
no OTP removal happens. -/
theorem dec_keys_duplicate_request_counterexample :
    (get_key_with_ids ⟨[Bucket.mk "A" "B" [Key.mk "a" "ka"]], emptyPool⟩ "A" "B"
      ["a", "a"]).1.status = 206 ∧
    (∀ kid ∈ ["a", "a"],
      kid ∈ ((get_key_with_ids ⟨[Bucket.mk "A" "B" [Key.mk "a" "ka"]], emptyPool⟩ "A" "B"
        ["a", "a"]).1.keys).map Key.key_ID) := by
  decide

/-! ## C1: OTP consumption -/

theorem removeKeyId_no_match (M S kid : String) :
    ∀ l : Store, (∀ b ∈ l, ¬(b.master_sae_id = M ∧ b.slave_sae_id = S)) →
      removeKeyId M S kid l = l := by
  intro l
  induction l with
  | nil => intro _; rfl
  | cons b rest ih =>
    intro h
    have hb : ¬(b.master_sae_id == M && b.slave_sae_id == S) = true := by
      simp only [Bool.and_eq_true, beq_iff_eq, not_and]
      intro h1 h2
      exact h b (List.mem_cons_self b rest) ⟨h1, h2⟩
    simp only [removeKeyId, hb, Bool.false_eq_true, if_false]
    rw [ih (fun b hb => h b (List.mem_cons_of_mem _ hb))]

theorem removeKeyId_append_front (M S kid : String) (rest : Store) :
    ∀ pre : Store, (∀ b ∈ pre, ¬(b.master_sae_id = M ∧ b.slave_sae_id = S)) →
      removeKeyId M S kid (pre ++ rest) = pre ++ removeKeyId M S kid rest := by
  intro pre
  induction pre with
  | nil => intro _; rfl
  | cons b tl ih =>
    intro h
    have hb : ¬(b.master_sae_id == M && b.slave_sae_id == S) = true := by
      simp only [Bool.and_eq_true, beq_iff_eq, not_and]
      intro h1 h2
      exact h b (List.mem_cons_self b tl) ⟨h1, h2⟩
    simp only [List.cons_append, removeKeyId, hb, Bool.false_eq_true, if_false,
      List.append_eq]
    rw [ih (fun b hb => h b (List.mem_cons_of_mem _ hb))]

theorem remove_keys_exact (M S : String) (pre post : Store)
    (hpre : ∀ b ∈ pre, ¬(b.master_sae_id = M ∧ b.slave_sae_id = S))
    (hpost : ∀ b ∈ post, ¬(b.master_sae_id = M ∧ b.slave_sae_id = S)) :
    ∀ ks : List Key, ks ≠ [] →
      remove_keys (pre ++ Bucket.mk M S ks :: post) M S ks = pre ++ post := by
  intro ks
  induction ks with
  | nil => intro h; exact absurd rfl h
  | cons k tail ih =>
    intro _
    have hstep : removeKeyId M S k.key_ID (pre ++ Bucket.mk M S (k :: tail) :: post) =
        pre ++ (if tail.isEmpty then post else Bucket.mk M S tail :: post) := by
      rw [removeKeyId_append_front M S k.key_ID _ pre hpre]
      simp only [removeKeyId, beq_self_eq_true, Bool.and_self, if_true]
      have herase : eraseFirstKey k.key_ID (k :: tail) = tail := by
        simp [eraseFirstKey]
      rw [herase]
      cases htl : tail.isEmpty with
      | true => simp
      | false =>
        simp only [Bool.false_eq_true, if_false]
        rw [removeKeyId_no_match M S k.key_ID post hpost]
    cases tail with
    | nil =>
      simp only [remove_keys, List.foldl_cons, List.foldl_nil, hstep, List.isEmpty_nil,
        if_true]
    | cons k2 tl2 =>
      have htl : ((k2 :: tl2).isEmpty) = false := by simp
      simp only [remove_keys, List.foldl_cons, hstep, htl, Bool.false_eq_true, if_false]
      exact ih (by simp)

/-- C1 counterexample to the claim as stated: key `a` sits in the (A,B)
bucket and, as `enc_keys` leaves it, also in the pool's reserved table.
The first full-match `dec_keys` returns 200 and removes it from the
bucket; the second *identical* request does not return 404 — it recovers
the key from the reserved table and returns 200 again (OTP violated). -/
theorem dec_keys_otp_counterexample :
    (get_key_with_ids
      ⟨[Bucket.mk "A" "B" [Key.mk "a" "ka"]],
       PoolState.mk [] [("a", Key.mk "a" "ka")] 32 10 0 0 0 0 0⟩
      "A" "B" ["a"]).1.status = 200 ∧
    (get_key_with_ids
      (get_key_with_ids
        ⟨[Bucket.mk "A" "B" [Key.mk "a" "ka"]],
         PoolState.mk [] [("a", Key.mk "a" "ka")] 32 10 0 0 0 0 0⟩
        "A" "B" ["a"]).2.1
      "A" "B" ["a"]).1.status = 200 := by
  decide

/-- C1 (amended): for a full-match `dec_keys` whose distinct requested
ids all reside in the (master→slave) bucket and are absent from the
shared pool, the operation returns 200 with exactly those keys, removes
exactly them from the store (here: empties and drops the bucket),
broadcasts the removal, leaves the pool untouched, and a second
identical request returns 404.  (When the pool's reserved table still
holds any of the ids — as it does after a pool-backed `enc_keys` — the
second request recovers them from the pool and returns 200 instead; see
the counterexample.) -/
theorem dec_keys_otp_amended (pre post : Store) (ks : List Key) (M S : String)
    (pool : PoolState)
    (hMS : M ≠ S) (hks : ks ≠ [])
    (hside : ∀ b ∈ pre ++ post, ¬(b.master_sae_id = M ∧ b.slave_sae_id = S) ∧
      ¬(b.master_sae_id = S ∧ b.slave_sae_id = M))
    (hpool : ∀ k ∈ ks, rlookup k.key_ID pool.reserved_keys = none ∧
      ∀ k' ∈ pool.keys, k'.key_ID ≠ k.key_ID) :
    (get_key_with_ids ⟨pre ++ Bucket.mk M S ks :: post, pool⟩ M S
      (ks.map Key.key_ID)).1.status = 200 ∧
    (get_key_with_ids ⟨pre ++ Bucket.mk M S ks :: post, pool⟩ M S
      (ks.map Key.key_ID)).1.keys = ks ∧
    (get_key_with_ids ⟨pre ++ Bucket.mk M S ks :: post, pool⟩ M S
      (ks.map Key.key_ID)).2.1.store = pre ++ post ∧
    (get_key_with_ids ⟨pre ++ Bucket.mk M S ks :: post, pool⟩ M S
      (ks.map Key.key_ID)).2.1.pool = pool ∧
    (get_key_with_ids ⟨pre ++ Bucket.mk M S ks :: post, pool⟩ M S
      (ks.map Key.key_ID)).2.2 = [Event.removeSent M S ks] ∧
    (get_key_with_ids
      (get_key_with_ids ⟨pre ++ Bucket.mk M S ks :: post, pool⟩ M S
        (ks.map Key.key_ID)).2.1 M S (ks.map Key.key_ID)).1.status = 404 := by
  have hpre : ∀ b ∈ pre, ¬(b.master_sae_id = M ∧ b.slave_sae_id = S) :=
    fun b hb => (hside b (List.mem_append_left _ hb)).1
  have hpost : ∀ b ∈ post, ¬(b.master_sae_id = M ∧ b.slave_sae_id = S) :=
    fun b hb => (hside b (List.mem_append_right _ hb)).1
  have h1 : store_get_keys (pre ++ Bucket.mk M S ks :: post) M S = ks := by
    simp only [store_get_keys, get_sae_key_container, List.filter_append, List.filter_cons]
    have hpre0 : List.filter (fun b =>
        b.master_sae_id == M && b.slave_sae_id == S) pre = [] := by
      rw [List.filter_eq_nil_iff]
      intro b hb
      simp only [Bool.and_eq_true, beq_iff_eq, not_and]
      intro ha hb2
      exact hpre b hb ⟨ha, hb2⟩
    simp [hpre0]
  have h2 : store_get_keys (pre ++ Bucket.mk M S ks :: post) S M = [] := by
    refine store_get_keys_no_match S M _ ?_
    intro b hb
    rcases List.mem_append.mp hb with hb1 | hb2
    · exact (hside b (List.mem_append_left _ hb1)).2
    · rcases List.mem_cons.mp hb2 with rfl | hb3
      · rintro ⟨ha, _⟩
        exact hMS (by simpa using ha)
      · exact (hside b (List.mem_append_right _ hb3)).2
  have hsel : (ks.filter (fun k => (ks.map Key.key_ID).contains k.key_ID)) = ks := by
    rw [List.filter_eq_self]
    intro k hk
    exact List.elem_iff.mpr (List.mem_map_of_mem Key.key_ID hk)
  have hmiss : ((ks.map Key.key_ID).filter
      (fun kid => !((ks.map Key.key_ID).contains kid))) = [] := by
    rw [List.filter_eq_nil_iff]
    intro kid hkid
    simpa using hkid
  have hmain : get_key_with_ids ⟨pre ++ Bucket.mk M S ks :: post, pool⟩ M S
      (ks.map Key.key_ID) =
      (⟨200, none, ks⟩, ⟨pre ++ post, pool⟩, [Event.removeSent M S ks]) := by
    simp only [get_key_with_ids, h1, h2, List.append_nil, hsel, hmiss, decRecover,
      List.foldl_nil, List.length_map]
    have hlen0 : ¬(ks.length = 0) := by
      cases ks with
      | nil => exact absurd rfl hks
      | cons a l => simp
    rw [if_neg hlen0, if_neg (fun hh : ks.length ≠ ks.length => hh rfl)]
    simp only [keystore_remove, remove_keys_exact M S pre post hpre hpost ks hks, if_true]
  have h404 : get_key_with_ids ⟨pre ++ post, pool⟩ M S (ks.map Key.key_ID) =
      (⟨404, some "None of the requested keys exist.", []⟩, ⟨pre ++ post, pool⟩, []) := by
    have s1 : store_get_keys (pre ++ post) M S = [] :=
      store_get_keys_no_match M S _ (fun b hb => (hside b hb).1)
    have s2 : store_get_keys (pre ++ post) S M = [] :=
      store_get_keys_no_match S M _ (fun b hb => (hside b hb).2)
    have hrec : decRecover (ks.map Key.key_ID) pool = ([], pool) := by
      refine decRecover_none _ pool ?_
      intro kid hkid
      obtain ⟨k, hk, rfl⟩ := List.mem_map.mp hkid
      exact ⟨(hpool k hk).1, fun k' hk' => (hpool k hk).2 k' hk'⟩
    simp only [get_key_with_ids, s1, s2, List.append_nil, List.filter_nil, List.map_nil,
      List.contains_nil, Bool.not_false, List.filter_true, hrec, List.nil_append,
      List.length_nil, if_pos rfl]
    simp
  rw [hmain]
  exact ⟨rfl, rfl, rfl, rfl, rfl, by rw [h404]⟩

/-- Witness for the amended C1 with one key in the (A,B) bucket and an
empty pool. -/
theorem dec_keys_otp_amended_witness :
    ("A" : String) ≠ "B" ∧ ([Key.mk "a" "ka"] : List Key) ≠ [] ∧
    (get_key_with_ids ⟨[] ++ Bucket.mk "A" "B" [Key.mk "a" "ka"] :: [], emptyPool⟩ "A" "B"
      ([Key.mk "a" "ka"].map Key.key_ID)).1.status = 200 ∧
    (get_key_with_ids
      (get_key_with_ids ⟨[] ++ Bucket.mk "A" "B" [Key.mk "a" "ka"] :: [], emptyPool⟩
        "A" "B" ([Key.mk "a" "ka"].map Key.key_ID)).2.1 "A" "B"
      ([Key.mk "a" "ka"].map Key.key_ID)).1.status = 404 :=
  ⟨by decide, by decide,
   (dec_keys_otp_amended [] [] [Key.mk "a" "ka"] "A" "B" emptyPool (by decide) (by decide)
      (fun b hb => by simp at hb) (fun k hk => by
        simp only [emptyPool]
        exact ⟨rfl, fun k' hk' => by simp at hk'⟩)).1,
   (dec_keys_otp_amended [] [] [Key.mk "a" "ka"] "A" "B" emptyPool (by decide) (by decide)
      (fun b hb => by simp at hb) (fun k hk => by
        simp only [emptyPool]
        exact ⟨rfl, fun k' hk' => by simp at hk'⟩)).2.2.2.2.2⟩
